import Mathlib

/-!
# Verification of the `atom` feed-validation library

A shallow embedding of the Go package `atom` (files `feed.go`,
`validation.go`): the data model of RFC 4287 feeds and the validation
engine, together with theorems checking the package's specification.

External syntax checkers (`url.Parse`, `mail.ParseAddress`,
`time.Parse` with the RFC 3339 layout) are modelled as parameters: a
`Stdlib` record maps each input string either to `none` (the parse
succeeded) or to `some m`, where `m` is the rendered error message the
Go code would append via `AddErr`.
-/

namespace Atom

/-- Common ATOM xml attributes (`feed.go`, `Common`). -/
structure Common where
  base : String
  lang : String
deriving DecidableEq, Repr

/-- A custom atom element (`feed.go`, `Extension`); the qualified name and
the raw inner XML, opaque to validation. -/
structure Extension where
  xmlName : String
  xml : String
deriving DecidableEq, Repr

/-- Entry content (`feed.go`, `Text`). -/
structure Text where
  common : Common
  type : String
  src : String
  body : String
deriving DecidableEq, Repr

/-- A feed author or contributor (`feed.go`, `Person`). -/
structure Person where
  common : Common
  name : String
  uri : String
  email : String
  ext : List Extension
deriving DecidableEq, Repr

/-- A date/time attribute in RFC 3339 format (`feed.go`, `TimeStr`). -/
abbrev TimeStr := String

/-- The category a feed or entry belongs to (`feed.go`, `Category`). -/
structure Category where
  common : Common
  term : String
  scheme : String
  label : String
deriving DecidableEq, Repr

/-- The generating agent of a feed (`feed.go`, `Generator`). -/
structure Generator where
  common : Common
  uri : String
  version : String
  text : String
deriving DecidableEq, Repr

/-- A feed or entry link (`feed.go`, `Link`). -/
structure Link where
  common : Common
  href : String
  rel : String
  type : String
  hrefLang : String
  title : String
  length : String
deriving DecidableEq, Repr

mutual
/-- The top level ATOM syndication element (`feed.go`, `Feed`).  Field
order follows the Go struct: common, author, category, contributor,
generator, icon, id, link, logo, rights, subtitle, title, updated,
entry, extension. -/
inductive Feed : Type where
  | mk
      (common : Common)
      (author : List Person)
      (category : List Category)
      (contributor : List Person)
      (generator : Option Generator)
      (icon : String)
      (id : String)
      (link : List Link)
      (logo : String)
      (rights : String)
      (subtitle : String)
      (title : String)
      (updated : TimeStr)
      (entry : List Entry)
      (ext : List Extension) : Feed

/-- A single entry inside a Feed (`feed.go`, `Entry`).  Field order
follows the Go struct: common, author, category, content, contributor,
id, link, published, rights, source, summary, title, updated,
extension. -/
inductive Entry : Type where
  | mk
      (common : Common)
      (author : List Person)
      (category : List Category)
      (content : Option Text)
      (contributor : List Person)
      (id : String)
      (link : List Link)
      (published : TimeStr)
      (rights : String)
      (source : Option Source)
      (summary : Option Text)
      (title : String)
      (updated : TimeStr)
      (ext : List Extension) : Entry

/-- The verbatim source feed an entry was copied from (`feed.go`,
`Source`); the `Feed` pointer may be nil, modelled by `Option`. -/
inductive Source : Type where
  | mk (feed : Option Feed) : Source
end

def Feed.common : Feed → Common | .mk c _ _ _ _ _ _ _ _ _ _ _ _ _ _ => c
def Feed.author : Feed → List Person | .mk _ a _ _ _ _ _ _ _ _ _ _ _ _ _ => a
def Feed.category : Feed → List Category | .mk _ _ c _ _ _ _ _ _ _ _ _ _ _ _ => c
def Feed.contributor : Feed → List Person | .mk _ _ _ c _ _ _ _ _ _ _ _ _ _ _ => c
def Feed.generator : Feed → Option Generator | .mk _ _ _ _ g _ _ _ _ _ _ _ _ _ _ => g
def Feed.icon : Feed → String | .mk _ _ _ _ _ i _ _ _ _ _ _ _ _ _ => i
def Feed.id : Feed → String | .mk _ _ _ _ _ _ i _ _ _ _ _ _ _ _ => i
def Feed.link : Feed → List Link | .mk _ _ _ _ _ _ _ l _ _ _ _ _ _ _ => l
def Feed.logo : Feed → String | .mk _ _ _ _ _ _ _ _ l _ _ _ _ _ _ => l
def Feed.title : Feed → String | .mk _ _ _ _ _ _ _ _ _ _ _ t _ _ _ => t
def Feed.updated : Feed → TimeStr | .mk _ _ _ _ _ _ _ _ _ _ _ _ u _ _ => u
def Feed.entry : Feed → List Entry | .mk _ _ _ _ _ _ _ _ _ _ _ _ _ e _ => e

def Entry.common : Entry → Common | .mk c _ _ _ _ _ _ _ _ _ _ _ _ _ => c
def Entry.author : Entry → List Person | .mk _ a _ _ _ _ _ _ _ _ _ _ _ _ => a
def Entry.category : Entry → List Category | .mk _ _ c _ _ _ _ _ _ _ _ _ _ _ => c
def Entry.content : Entry → Option Text | .mk _ _ _ c _ _ _ _ _ _ _ _ _ _ => c
def Entry.contributor : Entry → List Person | .mk _ _ _ _ c _ _ _ _ _ _ _ _ _ => c
def Entry.id : Entry → String | .mk _ _ _ _ _ i _ _ _ _ _ _ _ _ => i
def Entry.link : Entry → List Link | .mk _ _ _ _ _ _ l _ _ _ _ _ _ _ => l
def Entry.published : Entry → TimeStr | .mk _ _ _ _ _ _ _ p _ _ _ _ _ _ => p
def Entry.source : Entry → Option Source | .mk _ _ _ _ _ _ _ _ _ s _ _ _ _ => s
def Entry.summary : Entry → Option Text | .mk _ _ _ _ _ _ _ _ _ _ s _ _ _ => s
def Entry.title : Entry → String | .mk _ _ _ _ _ _ _ _ _ _ _ t _ _ => t
def Entry.updated : Entry → TimeStr | .mk _ _ _ _ _ _ _ _ _ _ _ _ u _ => u

def Source.feed : Source → Option Feed | .mk f => f

/-- The external syntax checkers (`url.Parse`, `mail.ParseAddress`,
`time.Parse` with layout `AtomTimeFormat`), each modelled as the error
message it produces on a given input, or `none` on success. -/
structure Stdlib where
  urlParseErr : String → Option String
  mailParseErr : String → Option String
  timeParseErr : String → Option String

/-- The fixed issue messages produced by the validation engine itself
(`validation.go`). -/
def altMsg : String := "Only one Feed.Link with rel=\"alternate\" can exist."

def authorMsg : String := "Author must be present in Feed or in every Entry."

def feedIdMsg : String := "Feed.ID can't be empty."

def feedTitleMsg : String := "Feed.Title can't be empty."

def feedUpdatedMsg : String := "Feed.Updated can't be empty."

def entryIdMsg : String := "Entry.ID can't be empty."

def entryTitleMsg : String := "Entry.Title can't be empty."

def entryUpdatedMsg : String := "Entry.Updated can't be empty."

def entrySourceMsg : String := "Entry.Source can't contain any entries."

def textTypeMsg : String := "Text.Type must be either: text, html or xhtml."

/-- All fixed messages the engine can add itself. -/
def atomMessages : List String :=
  [altMsg, authorMsg, feedIdMsg, feedTitleMsg, feedUpdatedMsg,
   entryIdMsg, entryTitleMsg, entryUpdatedMsg, entrySourceMsg, textTypeMsg]

/-- The fixed messages that `Entry.Validate` itself can add (excluding
those merged in from a recursively validated source feed). -/
def entryMsgs : List String :=
  [entryIdMsg, altMsg, entrySourceMsg, textTypeMsg, entryTitleMsg, entryUpdatedMsg]

/-- A well-behaved stdlib: the error messages rendered by the external
syntax checkers are never equal to one of the engine's own fixed
messages (true of the real Go standard library, whose messages are
prefixed `parse ...`, `mail: ...`, `parsing time ...`). -/
def Stdlib.good (std : Stdlib) : Prop :=
  (∀ s m, std.urlParseErr s = some m → m ∉ atomMessages) ∧
  (∀ s m, std.mailParseErr s = some m → m ∉ atomMessages) ∧
  (∀ s m, std.timeParseErr s = some m → m ∉ atomMessages)

/-- A stdlib whose checkers accept every input. -/
def trivStd : Stdlib :=
  ⟨fun _ => none, fun _ => none, fun _ => none⟩

theorem trivStd_good : trivStd.good := by
  refine ⟨?_, ?_, ?_⟩ <;> intro s m h <;> simp [trivStd] at h

/-! ## The issue aggregator (`validation.go`, `ValidationError`)

A `*ValidationError` is its list of issues; a Go `error` result of a
validator is `none` (nil) or `some issues`. -/

/-- `ValidationError.Error` (`validation.go:15`): render the issues as a
fixed header line followed by one `- issue` line each. -/
def ValidationError.Error (issues : List String) : String :=
  issues.foldl (fun result issue => result ++ "- " ++ issue ++ "\n")
    "An ATOM validation error occured:\n"

/-- A Go `error` value as seen by `Merge`: dynamically either a
`*ValidationError` or some other error type. -/
inductive GoError : Type where
  | validation (issues : List String) : GoError
  | other (msg : String) : GoError
deriving DecidableEq, Repr

/-- `ValidationError.Merge` (`validation.go:26`): a nil argument is a
no-op; a `*ValidationError` argument has its issues appended; any other
error type makes the type assertion `other.(*ValidationError)` panic,
modelled by `none`. -/
def ValidationError.Merge (issues : List String) : Option GoError → Option (List String)
  | none => some issues
  | some (.validation more) => some (issues ++ more)
  | some (.other _) => none

/-- Every validator in the package returns either nil or a
`*ValidationError`; this injects such a result into the Go `error`
interface value that `Merge` inspects. -/
def asGoError : Option (List String) → Option GoError :=
  Option.map GoError.validation

/-- `ValidationError.NilIfEmpty` (`validation.go:47`). -/
def nilIfEmpty (issues : List String) : Option (List String) :=
  if issues = [] then none else some issues

/-- The effect of `errs.Merge(other)` on the issue list, in the
within-package case where `other` is nil or a `*ValidationError`. -/
def mergeOpt (issues : List String) : Option (List String) → List String
  | none => issues
  | some more => issues ++ more

/-! ## Leaf validators (`validation.go`) -/

/-- The issues appended by the recurring Go idiom
`if _, err := parse(s); err != nil { errs.AddErr(err) }`: the rendered
message if the parse failed, nothing otherwise. -/
def parseErrIssues : Option String → List String
  | some m => [m]
  | none => []

/-- `validateCommon` (`validation.go:56`). -/
def validateCommon (std : Stdlib) (common : Common) : Option (List String) :=
  let issues : List String :=
    if common.base ≠ "" then parseErrIssues (std.urlParseErr common.base) else []
  nilIfEmpty issues

/-- `Text.validate` (`validation.go:69`). -/
def Text.validate (std : Stdlib) (isContent : Bool) (text : Text) : Option (List String) :=
  let issues := mergeOpt [] (validateCommon std text.common)
  let issues :=
    if !isContent then
      if text.type ≠ "" then
        if text.type ≠ "text" ∧ text.type ≠ "html" ∧ text.type ≠ "xhtml" then
          issues ++ [textTypeMsg]
        else issues
      else issues
    else issues
  let issues :=
    if text.src ≠ "" then issues ++ parseErrIssues (std.urlParseErr text.src) else issues
  nilIfEmpty issues

/-- `Person.validate` (`validation.go:92`). -/
def Person.validate (std : Stdlib) (person : Person) : Option (List String) :=
  let issues := mergeOpt [] (validateCommon std person.common)
  let issues :=
    if person.uri ≠ "" then issues ++ parseErrIssues (std.urlParseErr person.uri) else issues
  let issues :=
    if person.email ≠ "" then issues ++ parseErrIssues (std.mailParseErr person.email) else issues
  nilIfEmpty issues

/-- `TimeStr.validate` (`validation.go:113`). -/
def TimeStr.validate (std : Stdlib) (timeStr : TimeStr) : Option (List String) :=
  nilIfEmpty (parseErrIssues (std.timeParseErr timeStr))

/-- `Category.validate` (`validation.go:124`).  Note: `Term` is never
checked. -/
def Category.validate (std : Stdlib) (category : Category) : Option (List String) :=
  let issues := mergeOpt [] (validateCommon std category.common)
  let issues :=
    if category.scheme ≠ "" then issues ++ parseErrIssues (std.urlParseErr category.scheme)
    else issues
  nilIfEmpty issues

/-- `Generator.validate` (`validation.go:139`). -/
def Generator.validate (std : Stdlib) (generator : Generator) : Option (List String) :=
  let issues := mergeOpt [] (validateCommon std generator.common)
  let issues :=
    if generator.uri ≠ "" then issues ++ parseErrIssues (std.urlParseErr generator.uri)
    else issues
  nilIfEmpty issues

/-- `Link.validate` (`validation.go:154`): `Href` is parsed
unconditionally. -/
def Link.validate (std : Stdlib) (link : Link) : Option (List String) :=
  let issues := mergeOpt [] (validateCommon std link.common)
  let issues := issues ++ parseErrIssues (std.urlParseErr link.href)
  nilIfEmpty issues

/-- The link loop shared verbatim by `Entry.Validate`
(`validation.go:192`) and `Feed.Validate` (`validation.go:280`):
validate each link and flag every `rel="alternate"` link after the
first (`foundAlternate` starts out false). -/
def validateLinks (std : Stdlib) : List Link → Bool → List String → List String
  | [], _, issues => issues
  | link :: rest, foundAlternate, issues =>
    let issues := mergeOpt issues (Link.validate std link)
    if link.rel = "alternate" then
      if foundAlternate then
        validateLinks std rest foundAlternate (issues ++ [altMsg])
      else
        validateLinks std rest true issues
    else
      validateLinks std rest foundAlternate issues

/-- The author-coverage loop of `Feed.Validate` (`validation.go:250`):
walk the entries and, at the first entry with no author, add the single
issue and break. -/
def authorCoverageIssues : List Entry → List String
  | [] => []
  | entry :: rest =>
    if entry.author = [] then [authorMsg] else authorCoverageIssues rest

/-! ## The two entry points (`validation.go`, `Entry.Validate` and
`Feed.Validate`)

Both can dereference `entry.Source.Feed` without a nil check, so the
result type is `Except Unit (Option (List String))`: `.error ()` models
the nil-pointer panic, `.ok none` models a nil (no issues) return and
`.ok (some issues)` a `*ValidationError` return. -/

/-- The issues merged by `if entry.Content != nil {
errs.Merge(entry.Content.validate(isContent)) }` (`validation.go:180`,
`validation.go:215`): nothing when the pointer is nil (merging nil is a
no-op), the `Text` validation otherwise. -/
def optTextIssues (std : Stdlib) (isContent : Bool) : Option Text → Option (List String)
  | some text => Text.validate std isContent text
  | none => none

/-- The issues merged by `if feed.Generator != nil {
errs.Merge(feed.Generator.validate()) }` (`validation.go:266`). -/
def optGeneratorIssues (std : Stdlib) : Option Generator → Option (List String)
  | some generator => Generator.validate std generator
  | none => none

/-- The tail of `Feed.Validate` (`validation.go:313`): run the entry
loop (propagating a panic) and return `errs.NilIfEmpty()`. -/
def finishFeed (r : Except Unit (List String)) : Except Unit (Option (List String)) :=
  match r with
  | .error u => .error u
  | .ok issues => .ok (nilIfEmpty issues)

/-- The tail of `Entry.Validate` (`validation.go:229`): merge the
recursive validation of the source feed (propagating a panic) and
return `errs.NilIfEmpty()`. -/
def finishEntry (issues : List String) (r : Except Unit (Option (List String))) :
    Except Unit (Option (List String)) :=
  match r with
  | .error u => .error u
  | .ok sub => .ok (nilIfEmpty (mergeOpt issues sub))

mutual

/-- `Entry.Validate` (`validation.go:167`). -/
def Entry.Validate (std : Stdlib) : Entry → Except Unit (Option (List String))
  | .mk common author category content contributor id link published _rights
      source summary title updated _ext =>
    let issues := mergeOpt [] (validateCommon std common)
    let issues := author.foldl (fun acc person => mergeOpt acc (Person.validate std person)) issues
    let issues := category.foldl (fun acc cat => mergeOpt acc (Category.validate std cat)) issues
    let issues := mergeOpt issues (optTextIssues std true content)
    let issues := contributor.foldl (fun acc person => mergeOpt acc (Person.validate std person)) issues
    let issues := if id = "" then issues ++ [entryIdMsg] else issues
    let issues := validateLinks std link false issues
    let issues :=
      if published ≠ "" then mergeOpt issues (TimeStr.validate std published) else issues
    let post : List String → List String := fun issues =>
      let issues := mergeOpt issues (optTextIssues std false summary)
      let issues := if title = "" then issues ++ [entryTitleMsg] else issues
      if updated ≠ "" then mergeOpt issues (TimeStr.validate std updated)
      else issues ++ [entryUpdatedMsg]
    match source with
    | none => .ok (nilIfEmpty (post issues))
    | some (.mk none) => .error ()
    | some (.mk (some sourceFeed)) =>
      let issues :=
        if sourceFeed.entry.length > 0 then issues ++ [entrySourceMsg] else issues
      let issues := post issues
      finishEntry issues (Feed.Validate std sourceFeed)
termination_by entry => sizeOf entry

/-- `Feed.Validate` (`validation.go:239`). -/
def Feed.Validate (std : Stdlib) : Feed → Except Unit (Option (List String))
  | .mk common author category contributor generator icon id link logo _rights
      _subtitle title updated entry _ext =>
    let issues := mergeOpt [] (validateCommon std common)
    let issues := author.foldl (fun acc person => mergeOpt acc (Person.validate std person)) issues
    let issues := if author = [] then issues ++ authorCoverageIssues entry else issues
    let issues := category.foldl (fun acc cat => mergeOpt acc (Category.validate std cat)) issues
    let issues := contributor.foldl (fun acc person => mergeOpt acc (Person.validate std person)) issues
    let issues := mergeOpt issues (optGeneratorIssues std generator)
    let issues :=
      if icon ≠ "" then issues ++ parseErrIssues (std.urlParseErr icon) else issues
    let issues := if id = "" then issues ++ [feedIdMsg] else issues
    let issues := validateLinks std link false issues
    let issues :=
      if logo ≠ "" then issues ++ parseErrIssues (std.urlParseErr logo) else issues
    let issues := if title = "" then issues ++ [feedTitleMsg] else issues
    let issues := if updated = "" then issues ++ [feedUpdatedMsg] else issues
    let issues :=
      if updated ≠ "" then mergeOpt issues (TimeStr.validate std updated)
      else issues ++ [feedUpdatedMsg]
    finishFeed (entriesLoop std entry issues)
termination_by feed => sizeOf feed

/-- The entries loop of `Feed.Validate` (`validation.go:313`). -/
def entriesLoop (std : Stdlib) : List Entry → List String → Except Unit (List String)
  | [], issues => .ok issues
  | entry :: rest, issues =>
    match Entry.Validate std entry with
    | .error u => .error u
    | .ok r => entriesLoop std rest (mergeOpt issues r)
termination_by entries _ => sizeOf entries

end

/-! ## Toolkit: reading results, membership and counting lemmas -/

/-- The issues carried by a nil-or-aggregator result. -/
def optIssues : Option (List String) → List String
  | none => []
  | some issues => issues

/-- The issues reported by a validation run; a panic reports nothing. -/
def issuesOf : Except Unit (Option (List String)) → List String
  | .ok r => optIssues r
  | .error _ => []

theorem mergeOpt_eq_append (i : List String) (v : Option (List String)) :
    mergeOpt i v = i ++ optIssues v := by
  cases v <;> simp [mergeOpt, optIssues]

theorem optIssues_nilIfEmpty (l : List String) : optIssues (nilIfEmpty l) = l := by
  by_cases h : l = [] <;> simp [nilIfEmpty, h, optIssues]

theorem issuesOf_ok (r : Option (List String)) : issuesOf (.ok r) = optIssues r := rfl

/-- A validator result none of whose issues is one of the engine's own
fixed messages. -/
def NotAtom (v : Option (List String)) : Prop :=
  ∀ m ∈ optIssues v, m ∉ atomMessages

theorem elems_parseErrIssues {P : String → Prop} (v : Option String)
    (hv : ∀ e, v = some e → P e) : ∀ m ∈ parseErrIssues v, P m := by
  intro m hm
  cases v with
  | none => simp [parseErrIssues] at hm
  | some e => simp [parseErrIssues] at hm; exact hm ▸ hv e rfl

theorem elems_ite {P : String → Prop} {a b : List String} (c : Prop) [Decidable c]
    (ha : ∀ m ∈ a, P m) (hb : ∀ m ∈ b, P m) : ∀ m ∈ (if c then a else b), P m := by
  split
  · exact ha
  · exact hb

theorem elems_append {P : String → Prop} {a b : List String}
    (ha : ∀ m ∈ a, P m) (hb : ∀ m ∈ b, P m) : ∀ m ∈ a ++ b, P m := by
  intro m hm
  rcases List.mem_append.mp hm with hm | hm
  · exact ha m hm
  · exact hb m hm

theorem elems_nil {P : String → Prop} : ∀ m ∈ ([] : List String), P m := by simp

theorem elems_append_single {P : String → Prop} {a : List String} (x : String)
    (ha : ∀ m ∈ a, P m) (hx : P x) : ∀ m ∈ a ++ [x], P m := by
  intro m hm
  rcases List.mem_append.mp hm with hm | hm
  · exact ha m hm
  · rw [List.mem_singleton.mp hm]; exact hx

theorem elems_mergeOpt {P : String → Prop} {i : List String} {v : Option (List String)}
    (hi : ∀ m ∈ i, P m) (hv : ∀ m ∈ optIssues v, P m) :
    ∀ m ∈ mergeOpt i v, P m := by
  rw [mergeOpt_eq_append]; exact elems_append hi hv

theorem notAtom_validateCommon (std : Stdlib) (hg : std.good) (c : Common) :
    NotAtom (validateCommon std c) := by
  intro m hm
  simp only [validateCommon, optIssues_nilIfEmpty] at hm
  exact elems_ite _ (elems_parseErrIssues _ fun e he => (hg.1 _ _ he ·)) (by simp) m hm

theorem notAtom_personValidate (std : Stdlib) (hg : std.good) (p : Person) :
    NotAtom (Person.validate std p) := by
  intro m hm
  simp only [Person.validate, optIssues_nilIfEmpty] at hm
  have h0 := elems_mergeOpt (P := (· ∉ atomMessages)) elems_nil
    (notAtom_validateCommon std hg p.common)
  have h1 := elems_ite (p.uri ≠ "") (elems_append h0
    (elems_parseErrIssues (std.urlParseErr p.uri) fun e he => (hg.1 _ _ he ·))) h0
  exact elems_ite (p.email ≠ "") (elems_append h1
    (elems_parseErrIssues (std.mailParseErr p.email) fun e he => (hg.2.1 _ _ he ·))) h1 m hm

theorem notAtom_categoryValidate (std : Stdlib) (hg : std.good) (c : Category) :
    NotAtom (Category.validate std c) := by
  intro m hm
  simp only [Category.validate, optIssues_nilIfEmpty] at hm
  have h0 := elems_mergeOpt (P := (· ∉ atomMessages)) elems_nil
    (notAtom_validateCommon std hg c.common)
  exact elems_ite (c.scheme ≠ "") (elems_append h0
    (elems_parseErrIssues (std.urlParseErr c.scheme) fun e he => (hg.1 _ _ he ·))) h0 m hm

theorem notAtom_generatorValidate (std : Stdlib) (hg : std.good) (g : Generator) :
    NotAtom (Generator.validate std g) := by
  intro m hm
  simp only [Generator.validate, optIssues_nilIfEmpty] at hm
  have h0 := elems_mergeOpt (P := (· ∉ atomMessages)) elems_nil
    (notAtom_validateCommon std hg g.common)
  exact elems_ite (g.uri ≠ "") (elems_append h0
    (elems_parseErrIssues (std.urlParseErr g.uri) fun e he => (hg.1 _ _ he ·))) h0 m hm

theorem notAtom_linkValidate (std : Stdlib) (hg : std.good) (l : Link) :
    NotAtom (Link.validate std l) := by
  intro m hm
  simp only [Link.validate, optIssues_nilIfEmpty] at hm
  have h0 := elems_mergeOpt (P := (· ∉ atomMessages)) elems_nil
    (notAtom_validateCommon std hg l.common)
  exact elems_append h0
    (elems_parseErrIssues _ fun e he => (hg.1 _ _ he ·)) m hm

theorem notAtom_timeStrValidate (std : Stdlib) (hg : std.good) (t : TimeStr) :
    NotAtom (TimeStr.validate std t) := by
  intro m hm
  simp only [TimeStr.validate, optIssues_nilIfEmpty] at hm
  exact elems_parseErrIssues _ (fun e he => (hg.2.2 _ _ he ·)) m hm

/-- In content mode, `Text.validate` only reports external parser
messages. -/
theorem notAtom_textValidateContent (std : Stdlib) (hg : std.good) (t : Text) :
    NotAtom (Text.validate std true t) := by
  intro m hm
  simp only [Text.validate, optIssues_nilIfEmpty] at hm
  rw [if_neg (by simp : ¬((!(true : Bool)) = true))] at hm
  have h0 := elems_mergeOpt (P := (· ∉ atomMessages)) elems_nil
    (notAtom_validateCommon std hg t.common)
  exact elems_ite (t.src ≠ "") (elems_append h0
    (elems_parseErrIssues (std.urlParseErr t.src) fun e he => (hg.1 _ _ he ·))) h0 m hm

/-- In non-content mode, `Text.validate` reports external parser
messages and possibly the type-enumeration message. -/
theorem elems_textValidate (std : Stdlib) (hg : std.good) (t : Text) :
    ∀ m ∈ optIssues (Text.validate std false t), m ∉ atomMessages ∨ m = textTypeMsg := by
  intro m hm
  simp only [Text.validate, optIssues_nilIfEmpty] at hm
  rw [if_pos (by simp : ((!(false : Bool)) = true))] at hm
  have h0 := elems_mergeOpt (P := fun x => x ∉ atomMessages ∨ x = textTypeMsg) elems_nil
    (fun x hx => .inl (notAtom_validateCommon std hg t.common x hx))
  have h1 := elems_ite (t.type ≠ "") (elems_ite
      (t.type ≠ "text" ∧ t.type ≠ "html" ∧ t.type ≠ "xhtml")
      (elems_append h0 (fun x hx => .inr (List.mem_singleton.mp hx))) h0) h0
  exact elems_ite (t.src ≠ "") (elems_append h1
    (elems_parseErrIssues (std.urlParseErr t.src) fun e he => .inl (hg.1 _ _ he))) h1 m hm

/-! ### Counting lemmas -/

theorem count_optIssues_nilIfEmpty (l : List String) (msg : String) :
    (optIssues (nilIfEmpty l)).count msg = l.count msg := by
  rw [optIssues_nilIfEmpty]

theorem count_notAtom {v : Option (List String)} (hv : NotAtom v) {msg : String}
    (hmsg : msg ∈ atomMessages) : (optIssues v).count msg = 0 :=
  List.count_eq_zero.mpr fun hmem => hv msg hmem hmsg

theorem count_mergeOpt (i : List String) (v : Option (List String)) (msg : String) :
    (mergeOpt i v).count msg = i.count msg + (optIssues v).count msg := by
  rw [mergeOpt_eq_append, List.count_append]

theorem count_mergeOpt_notAtom {v : Option (List String)} (hv : NotAtom v) {msg : String}
    (hmsg : msg ∈ atomMessages) (i : List String) :
    (mergeOpt i v).count msg = i.count msg := by
  rw [count_mergeOpt, count_notAtom hv hmsg, Nat.add_zero]

theorem count_append_single_ne {x msg : String} (h : ¬(x = msg)) (i : List String) :
    (i ++ [x]).count msg = i.count msg := by
  simp [List.count_append, List.count_singleton', h]

theorem count_append_single_eq (msg : String) (i : List String) :
    (i ++ [msg]).count msg = i.count msg + 1 := by
  simp [List.count_append, List.count_singleton']

/-- A `foldl` that merges validator results whose issues are all
external keeps any fixed message's count unchanged. -/
theorem count_foldl_mergeOpt {α : Type} (f : α → Option (List String)) {msg : String}
    (hmsg : msg ∈ atomMessages) (hf : ∀ a, NotAtom (f a)) :
    ∀ (as : List α) (i : List String),
      (as.foldl (fun acc a => mergeOpt acc (f a)) i).count msg = i.count msg := by
  intro as
  induction as with
  | nil => intro i; rfl
  | cons a rest ih =>
    intro i
    rw [List.foldl_cons, ih, count_mergeOpt_notAtom (hf a) hmsg]

theorem count_foldl_person (std : Stdlib) (hg : std.good) {msg : String}
    (hmsg : msg ∈ atomMessages) (ps : List Person) (i : List String) :
    (ps.foldl (fun acc person => mergeOpt acc (Person.validate std person)) i).count msg
      = i.count msg :=
  count_foldl_mergeOpt (Person.validate std) hmsg (notAtom_personValidate std hg) ps i

theorem count_foldl_category (std : Stdlib) (hg : std.good) {msg : String}
    (hmsg : msg ∈ atomMessages) (cs : List Category) (i : List String) :
    (cs.foldl (fun acc cat => mergeOpt acc (Category.validate std cat)) i).count msg
      = i.count msg :=
  count_foldl_mergeOpt (Category.validate std) hmsg (notAtom_categoryValidate std hg) cs i

theorem count_parseErrIssues (std : Stdlib) (hg : std.good) {msg : String}
    (hmsg : msg ∈ atomMessages) (s : String) :
    (parseErrIssues (std.urlParseErr s)).count msg = 0 := by
  apply List.count_eq_zero.mpr
  intro hmem
  exact elems_parseErrIssues (std.urlParseErr s) (fun e he => (hg.1 _ _ he ·)) msg hmem hmsg

/-- The number of links with `rel="alternate"`. -/
def countAlternate : List Link → Nat
  | [] => 0
  | link :: rest => (if link.rel = "alternate" then 1 else 0) + countAlternate rest

theorem validateLinks_cons_alt_t (std : Stdlib) (l : Link) (rest : List Link)
    (i : List String) (hrel : l.rel = "alternate") :
    validateLinks std (l :: rest) true i =
      validateLinks std rest true (mergeOpt i (Link.validate std l) ++ [altMsg]) := by
  simp [validateLinks, hrel]

theorem validateLinks_cons_alt_f (std : Stdlib) (l : Link) (rest : List Link)
    (i : List String) (hrel : l.rel = "alternate") :
    validateLinks std (l :: rest) false i =
      validateLinks std rest true (mergeOpt i (Link.validate std l)) := by
  simp [validateLinks, hrel]

theorem validateLinks_cons_ne (std : Stdlib) (l : Link) (rest : List Link)
    (found : Bool) (i : List String) (hrel : ¬(l.rel = "alternate")) :
    validateLinks std (l :: rest) found i =
      validateLinks std rest found (mergeOpt i (Link.validate std l)) := by
  simp [validateLinks, hrel]

theorem countAlternate_cons (l : Link) (rest : List Link) :
    countAlternate (l :: rest) = (if l.rel = "alternate" then 1 else 0) + countAlternate rest :=
  rfl

/-- The link loop adds the duplicate-alternate message once per
alternate link seen while the flag is set: starting with the flag
clear, that is once per alternate beyond the first. -/
theorem count_validateLinks_alt (std : Stdlib) (hg : std.good) :
    ∀ (ls : List Link) (found : Bool) (i : List String),
      (validateLinks std ls found i).count altMsg =
        i.count altMsg + (if found then countAlternate ls else countAlternate ls - 1) := by
  have haltmem : altMsg ∈ atomMessages := by simp [atomMessages]
  intro ls
  induction ls with
  | nil => intro found i; cases found <;> simp [validateLinks, countAlternate]
  | cons l rest ih =>
    intro found i
    by_cases hrel : l.rel = "alternate"
    · cases found with
      | true =>
        rw [validateLinks_cons_alt_t std l rest i hrel, ih, count_append_single_eq,
          count_mergeOpt_notAtom (notAtom_linkValidate std hg l) haltmem,
          countAlternate_cons, if_pos hrel]
        simp; omega
      | false =>
        rw [validateLinks_cons_alt_f std l rest i hrel, ih,
          count_mergeOpt_notAtom (notAtom_linkValidate std hg l) haltmem,
          countAlternate_cons, if_pos hrel]
        simp
    · cases found with
      | true =>
        rw [validateLinks_cons_ne std l rest true i hrel, ih,
          count_mergeOpt_notAtom (notAtom_linkValidate std hg l) haltmem,
          countAlternate_cons, if_neg hrel]
        simp
      | false =>
        rw [validateLinks_cons_ne std l rest false i hrel, ih,
          count_mergeOpt_notAtom (notAtom_linkValidate std hg l) haltmem,
          countAlternate_cons, if_neg hrel]
        simp

/-- The link loop never changes the count of a fixed message other than
the duplicate-alternate one. -/
theorem count_validateLinks_ne (std : Stdlib) (hg : std.good) {msg : String}
    (hmsg : msg ∈ atomMessages) (hne : ¬(altMsg = msg)) :
    ∀ (ls : List Link) (found : Bool) (i : List String),
      (validateLinks std ls found i).count msg = i.count msg := by
  intro ls
  induction ls with
  | nil => intro found i; simp [validateLinks]
  | cons l rest ih =>
    intro found i
    by_cases hrel : l.rel = "alternate"
    · cases found with
      | true =>
        rw [validateLinks_cons_alt_t std l rest i hrel, ih, count_append_single_ne hne,
          count_mergeOpt_notAtom (notAtom_linkValidate std hg l) hmsg]
      | false =>
        rw [validateLinks_cons_alt_f std l rest i hrel, ih,
          count_mergeOpt_notAtom (notAtom_linkValidate std hg l) hmsg]
    · rw [validateLinks_cons_ne std l rest found i hrel, ih,
        count_mergeOpt_notAtom (notAtom_linkValidate std hg l) hmsg]

theorem elems_authorCoverage (es : List Entry) :
    ∀ m ∈ authorCoverageIssues es, m = authorMsg := by
  induction es with
  | nil => simp [authorCoverageIssues]
  | cons e rest ih =>
    intro m hm
    simp only [authorCoverageIssues] at hm
    split at hm
    · simpa using hm
    · exact ih m hm

theorem authorCoverage_all (es : List Entry) (h : ∀ e ∈ es, ¬(e.author = [])) :
    authorCoverageIssues es = [] := by
  induction es with
  | nil => rfl
  | cons e rest ih =>
    simp only [authorCoverageIssues]
    rw [if_neg (h e (by simp))]
    exact ih fun x hx => h x (by simp [hx])

theorem authorCoverage_exists (es : List Entry) (h : ∃ e ∈ es, e.author = []) :
    authorCoverageIssues es = [authorMsg] := by
  induction es with
  | nil => simp at h
  | cons e rest ih =>
    simp only [authorCoverageIssues]
    by_cases he : e.author = []
    · rw [if_pos he]
    · rw [if_neg he]
      rcases h with ⟨x, hx, hxa⟩
      rcases List.mem_cons.mp hx with rfl | hx
      · exact absurd hxa he
      · exact ih ⟨x, hx, hxa⟩

/-! ### Membership (prefix) lemmas -/

theorem foldl_mergeOpt_prefix {α : Type} (f : α → Option (List String)) :
    ∀ (as : List α) (i : List String),
      ∃ t, as.foldl (fun acc a => mergeOpt acc (f a)) i = i ++ t := by
  intro as
  induction as with
  | nil => intro i; exact ⟨[], by simp⟩
  | cons a rest ih =>
    intro i
    rcases ih (mergeOpt i (f a)) with ⟨t, ht⟩
    exact ⟨optIssues (f a) ++ t, by
      rw [List.foldl_cons, ht, mergeOpt_eq_append, List.append_assoc]⟩

theorem validateLinks_prefix (std : Stdlib) :
    ∀ (ls : List Link) (found : Bool) (i : List String),
      ∃ t, validateLinks std ls found i = i ++ t := by
  intro ls
  induction ls with
  | nil => intro found i; exact ⟨[], by simp [validateLinks]⟩
  | cons l rest ih =>
    intro found i
    by_cases hrel : l.rel = "alternate"
    · cases found with
      | true =>
        rw [validateLinks_cons_alt_t std l rest i hrel]
        rcases ih true (mergeOpt i (Link.validate std l) ++ [altMsg]) with ⟨t, ht⟩
        exact ⟨optIssues (Link.validate std l) ++ [altMsg] ++ t, by
          rw [ht, mergeOpt_eq_append]; simp [List.append_assoc]⟩
      | false =>
        rw [validateLinks_cons_alt_f std l rest i hrel]
        rcases ih true (mergeOpt i (Link.validate std l)) with ⟨t, ht⟩
        exact ⟨optIssues (Link.validate std l) ++ t, by
          rw [ht, mergeOpt_eq_append, List.append_assoc]⟩
    · rw [validateLinks_cons_ne std l rest found i hrel]
      rcases ih found (mergeOpt i (Link.validate std l)) with ⟨t, ht⟩
      exact ⟨optIssues (Link.validate std l) ++ t, by
        rw [ht, mergeOpt_eq_append, List.append_assoc]⟩

/-! ### Bounds on the optional sub-entity steps -/

theorem notAtom_optTextContent (std : Stdlib) (hg : std.good) (o : Option Text) :
    NotAtom (optTextIssues std true o) := by
  cases o with
  | none => intro m hm; simp [optTextIssues, optIssues] at hm
  | some t => exact notAtom_textValidateContent std hg t

theorem elems_optTextSummary (std : Stdlib) (hg : std.good) (o : Option Text) :
    ∀ m ∈ optIssues (optTextIssues std false o), m ∉ atomMessages ∨ m = textTypeMsg := by
  cases o with
  | none => intro m hm; simp [optTextIssues, optIssues] at hm
  | some t => exact elems_textValidate std hg t

theorem notAtom_optGenerator (std : Stdlib) (hg : std.good) (o : Option Generator) :
    NotAtom (optGeneratorIssues std o) := by
  cases o with
  | none => intro m hm; simp [optGeneratorIssues, optIssues] at hm
  | some g => exact notAtom_generatorValidate std hg g

theorem count_optGenerator (std : Stdlib) (hg : std.good) {msg : String}
    (hmsg : msg ∈ atomMessages) (o : Option Generator) (i : List String) :
    (mergeOpt i (optGeneratorIssues std o)).count msg = i.count msg :=
  count_mergeOpt_notAtom (notAtom_optGenerator std hg o) hmsg i

theorem count_optTextContent (std : Stdlib) (hg : std.good) {msg : String}
    (hmsg : msg ∈ atomMessages) (o : Option Text) (i : List String) :
    (mergeOpt i (optTextIssues std true o)).count msg = i.count msg :=
  count_mergeOpt_notAtom (notAtom_optTextContent std hg o) hmsg i

theorem count_optTextSummary (std : Stdlib) (hg : std.good) {msg : String}
    (hmsg : msg ∈ atomMessages) (hne : ¬(textTypeMsg = msg)) (o : Option Text)
    (i : List String) :
    (mergeOpt i (optTextIssues std false o)).count msg = i.count msg := by
  rw [count_mergeOpt]
  have : (optIssues (optTextIssues std false o)).count msg = 0 :=
    List.count_eq_zero.mpr fun hmem =>
      (elems_optTextSummary std hg o msg hmem).elim (fun h => h hmsg) fun h => hne (h ▸ rfl)
  rw [this, Nat.add_zero]

/-! ### Bound-propagation through the loops -/

theorem elems_foldl_mergeOpt {α : Type} {P : String → Prop} (f : α → Option (List String))
    (hf : ∀ a, ∀ m ∈ optIssues (f a), P m) :
    ∀ (as : List α) (i : List String), (∀ m ∈ i, P m) →
      ∀ m ∈ as.foldl (fun acc a => mergeOpt acc (f a)) i, P m := by
  intro as
  induction as with
  | nil => intro i hi; exact hi
  | cons a rest ih =>
    intro i hi
    rw [List.foldl_cons]
    exact ih _ (elems_mergeOpt hi (hf a))

theorem elems_validateLinks {P : String → Prop} (std : Stdlib)
    (hl : ∀ l, ∀ m ∈ optIssues (Link.validate std l), P m) (halt : P altMsg) :
    ∀ (ls : List Link) (found : Bool) (i : List String), (∀ m ∈ i, P m) →
      ∀ m ∈ validateLinks std ls found i, P m := by
  intro ls
  induction ls with
  | nil => intro found i hi; simpa [validateLinks] using hi
  | cons l rest ih =>
    intro found i hi
    by_cases hrel : l.rel = "alternate"
    · cases found with
      | true =>
        rw [validateLinks_cons_alt_t std l rest i hrel]
        refine ih true _ (elems_append (elems_mergeOpt hi (hl l)) ?_)
        intro x hx
        rw [List.mem_singleton] at hx
        exact hx ▸ halt
      | false =>
        rw [validateLinks_cons_alt_f std l rest i hrel]
        exact ih true _ (elems_mergeOpt hi (hl l))
    · rw [validateLinks_cons_ne std l rest found i hrel]
      exact ih found _ (elems_mergeOpt hi (hl l))

/-! ### What a source-free entry can contribute -/

/-- An entry without a source element validates without panicking, and
every issue it reports is either an external parser message or one of
the entry-level fixed messages. -/
theorem entry_contrib (std : Stdlib) (hg : std.good) (e : Entry) (hs : e.source = none) :
    ∃ r, Entry.Validate std e = .ok r ∧
      ∀ m ∈ optIssues r, m ∉ atomMessages ∨ m ∈ entryMsgs := by
  obtain ⟨common, author, category, content, contributor, id, link, published, rights,
    source, summary, title, updated, ext⟩ := e
  simp only [Entry.source] at hs
  subst hs
  simp only [Entry.Validate]
  refine ⟨_, rfl, ?_⟩
  intro m hm
  rw [optIssues_nilIfEmpty] at hm
  have h1 := elems_mergeOpt (P := fun x => x ∉ atomMessages ∨ x ∈ entryMsgs) elems_nil
    (fun x hx => .inl (notAtom_validateCommon std hg common x hx))
  have h2 := elems_foldl_mergeOpt (Person.validate std)
    (fun p x hx => .inl (notAtom_personValidate std hg p x hx)) author _ h1
  have h3 := elems_foldl_mergeOpt (Category.validate std)
    (fun c x hx => .inl (notAtom_categoryValidate std hg c x hx)) category _ h2
  have h4 := elems_mergeOpt h3
    (fun x hx => .inl (notAtom_optTextContent std hg content x hx))
  have h5 := elems_foldl_mergeOpt (Person.validate std)
    (fun p x hx => .inl (notAtom_personValidate std hg p x hx)) contributor _ h4
  have h6 := elems_ite (id = "") (elems_append_single entryIdMsg h5
    (.inr (by simp [entryMsgs]))) h5
  have h7 := elems_validateLinks std
    (fun l x hx => .inl (notAtom_linkValidate std hg l x hx))
    (.inr (by simp [entryMsgs])) link false _ h6
  have h8 := elems_ite (published ≠ "") (elems_mergeOpt h7
    (fun x hx => .inl (notAtom_timeStrValidate std hg published x hx))) h7
  have h9 := elems_mergeOpt h8 (fun x hx =>
    (elems_optTextSummary std hg summary x hx).imp_right (fun heq => by
      rw [heq]; simp [entryMsgs]))
  have h10 := elems_ite (title = "") (elems_append_single entryTitleMsg h9
    (.inr (by simp [entryMsgs]))) h9
  exact elems_ite (updated ≠ "") (elems_mergeOpt h10
    (fun x hx => .inl (notAtom_timeStrValidate std hg updated x hx)))
    (elems_append_single entryUpdatedMsg h10 (.inr (by simp [entryMsgs]))) m hm

/-- The entries loop over source-free entries never panics, extends the
accumulator, and adds only parser messages and entry-level fixed
messages. -/
theorem entriesLoop_noSource (std : Stdlib) (hg : std.good) :
    ∀ (es : List Entry), (∀ e ∈ es, e.source = none) → ∀ (i : List String),
      ∃ t, entriesLoop std es i = .ok (i ++ t) ∧
        ∀ m ∈ t, m ∉ atomMessages ∨ m ∈ entryMsgs := by
  intro es
  induction es with
  | nil =>
    intro _ i
    exact ⟨[], by simp [entriesLoop], by simp⟩
  | cons e rest ih =>
    intro hs i
    rcases entry_contrib std hg e (hs e (by simp)) with ⟨r, hr, hrP⟩
    rcases ih (fun x hx => hs x (by simp [hx])) (mergeOpt i r) with ⟨t, ht, htP⟩
    rw [mergeOpt_eq_append] at ht
    refine ⟨optIssues r ++ t, ?_, elems_append hrP htP⟩
    simp only [entriesLoop, hr, ht, mergeOpt_eq_append, List.append_assoc]

/-- Running the entry loop over source-free entries and finishing never
changes the count of a feed-level fixed message. -/
theorem count_finishFeed_entriesLoop (std : Stdlib) (hg : std.good) (es : List Entry)
    (hs : ∀ e ∈ es, e.source = none) {msg : String} (hmsg : msg ∈ atomMessages)
    (hnm : msg ∉ entryMsgs) (i : List String) :
    (issuesOf (finishFeed (entriesLoop std es i))).count msg = i.count msg := by
  obtain ⟨t, ht, htP⟩ := entriesLoop_noSource std hg es hs i
  rw [ht]
  have htzero : t.count msg = 0 :=
    List.count_eq_zero.mpr fun hmem =>
      (htP msg hmem).elim (fun h => h hmsg) fun h => hnm h
  simp only [finishFeed, issuesOf_ok, count_optIssues_nilIfEmpty, List.count_append,
    htzero, Nat.add_zero]

/-- A successful run of the entry loop only appends to the accumulator. -/
theorem entriesLoop_ok_prefix (std : Stdlib) :
    ∀ (es : List Entry) (i out : List String),
      entriesLoop std es i = .ok out → ∃ t, out = i ++ t := by
  intro es
  induction es with
  | nil =>
    intro i out h
    simp only [entriesLoop] at h
    exact ⟨[], by simpa using h.symm⟩
  | cons e rest ih =>
    intro i out h
    simp only [entriesLoop] at h
    cases hval : Entry.Validate std e with
    | error u => rw [hval] at h; simp at h
    | ok r =>
      rw [hval] at h
      rcases ih (mergeOpt i r) out h with ⟨t, ht⟩
      exact ⟨optIssues r ++ t, by rw [ht, mergeOpt_eq_append, List.append_assoc]⟩

theorem finishFeed_ok_inv {x : Except Unit (List String)} {r : Option (List String)}
    (h : finishFeed x = .ok r) : ∃ out, x = .ok out ∧ r = nilIfEmpty out := by
  cases x with
  | error u => simp [finishFeed] at h
  | ok out => exact ⟨out, rfl, by simpa [finishFeed] using h.symm⟩

theorem finishEntry_ok_inv {i : List String} {x : Except Unit (Option (List String))}
    {r : Option (List String)} (h : finishEntry i x = .ok r) :
    ∃ sub, x = .ok sub ∧ r = nilIfEmpty (mergeOpt i sub) := by
  cases x with
  | error u => simp [finishEntry] at h
  | ok sub => exact ⟨sub, rfl, by simpa [finishEntry] using h.symm⟩

/-- Nonempty issue lists survive `nilIfEmpty`. -/
theorem mem_optIssues_nilIfEmpty {m : String} {l : List String} (h : m ∈ l) :
    m ∈ optIssues (nilIfEmpty l) := by
  rw [optIssues_nilIfEmpty]; exact h

/-! ### Counting through the feed pipeline -/

theorem count_ite_append (c : Prop) [Decidable c] (i extra : List String) (msg : String) :
    (if c then i ++ extra else i).count msg
      = i.count msg + (if c then extra.count msg else 0) := by
  split <;> simp [List.count_append]

/-- The two sequential `Updated` checks of `Feed.Validate`
(`validation.go:303` and `validation.go:307`): together they add the
empty-updated message twice when `updated` is empty, and otherwise only
merge the external parse result. -/
theorem count_updated_pair (std : Stdlib) (hg : std.good) {msg : String}
    (hmsg : msg ∈ atomMessages) (updated : TimeStr) (i : List String) :
    (if updated ≠ "" then
        mergeOpt (if updated = "" then i ++ [feedUpdatedMsg] else i)
          (TimeStr.validate std updated)
      else (if updated = "" then i ++ [feedUpdatedMsg] else i) ++ [feedUpdatedMsg]).count msg
      = i.count msg + (if updated = "" then 2 * List.count msg [feedUpdatedMsg] else 0) := by
  by_cases hu : updated = ""
  · rw [if_neg (fun h => h hu), if_pos hu, if_pos hu, List.count_append, List.count_append]
    omega
  · rw [if_pos hu, if_neg hu,
      count_mergeOpt_notAtom (notAtom_timeStrValidate std hg updated) hmsg, if_neg hu,
      Nat.add_zero]

theorem count_authorCoverage_ne {msg : String} (hne : ¬(authorMsg = msg)) (es : List Entry) :
    (authorCoverageIssues es).count msg = 0 :=
  List.count_eq_zero.mpr fun hmem => hne (elems_authorCoverage es msg hmem).symm

/-- The full count walk for `Feed.Validate` over a feed whose entries
carry no source element: any fixed message that entry validation cannot
add is counted exactly by the feed-level checks. -/
theorem feed_count_walk (std : Stdlib) (hg : std.good) {msg : String}
    (hmsg : msg ∈ atomMessages) (hnm : msg ∉ entryMsgs)
    (f : Feed) (hs : ∀ e ∈ f.entry, e.source = none) :
    (issuesOf (Feed.Validate std f)).count msg =
      (if f.author = [] then (authorCoverageIssues f.entry).count msg else 0)
      + (if f.id = "" then List.count msg [feedIdMsg] else 0)
      + (if f.title = "" then List.count msg [feedTitleMsg] else 0)
      + (if f.updated = "" then 2 * List.count msg [feedUpdatedMsg] else 0) := by
  have hnalt : ¬(altMsg = msg) := fun h => hnm (h ▸ (by simp [entryMsgs]))
  obtain ⟨common, author, category, contributor, generator, icon, id, link, logo,
    rights, subtitle, title, updated, entry, ext⟩ := f
  simp only [Feed.entry] at hs
  simp only [Feed.author, Feed.entry, Feed.id, Feed.title, Feed.updated]
  simp only [Feed.Validate]
  rw [count_finishFeed_entriesLoop std hg entry hs hmsg hnm]
  rw [count_updated_pair std hg hmsg updated]
  rw [count_ite_append (title = "")]
  rw [count_ite_append (logo ≠ "")]
  rw [count_validateLinks_ne std hg hmsg hnalt]
  rw [count_ite_append (id = "")]
  rw [count_ite_append (icon ≠ "")]
  rw [count_optGenerator std hg hmsg]
  rw [count_foldl_person std hg hmsg]
  rw [count_foldl_category std hg hmsg]
  rw [count_ite_append (author = [])]
  rw [count_foldl_person std hg hmsg]
  rw [count_mergeOpt_notAtom (notAtom_validateCommon std hg common) hmsg]
  rw [count_parseErrIssues std hg hmsg icon, count_parseErrIssues std hg hmsg logo]
  simp only [List.count_nil, ite_self, Nat.zero_add, Nat.add_zero]

/-- The count walk for the duplicate-alternate message over a feed with
no entries: the count is the number of alternate links beyond the
first. -/
theorem feed_count_alt_walk (std : Stdlib) (hg : std.good) (f : Feed) (he : f.entry = []) :
    (issuesOf (Feed.Validate std f)).count altMsg = countAlternate f.link - 1 := by
  have hmsg : altMsg ∈ atomMessages := by simp [atomMessages]
  obtain ⟨common, author, category, contributor, generator, icon, id, link, logo,
    rights, subtitle, title, updated, entry, ext⟩ := f
  simp only [Feed.entry] at he
  subst he
  simp only [Feed.link]
  simp only [Feed.Validate, entriesLoop, finishFeed, issuesOf_ok]
  rw [count_optIssues_nilIfEmpty]
  rw [count_updated_pair std hg hmsg updated]
  rw [count_ite_append (title = "")]
  rw [count_ite_append (logo ≠ "")]
  rw [count_validateLinks_alt std hg link false]
  rw [count_ite_append (id = "")]
  rw [count_ite_append (icon ≠ "")]
  rw [count_optGenerator std hg hmsg]
  rw [count_foldl_person std hg hmsg]
  rw [count_foldl_category std hg hmsg]
  rw [count_ite_append (author = [])]
  rw [count_foldl_person std hg hmsg]
  rw [count_mergeOpt_notAtom (notAtom_validateCommon std hg common) hmsg]
  rw [count_parseErrIssues std hg hmsg icon, count_parseErrIssues std hg hmsg logo]
  rw [count_authorCoverage_ne (by simp [authorMsg, altMsg]) []]
  have hId : List.count altMsg [feedIdMsg] = 0 := by
    simp [List.count_singleton', feedIdMsg, altMsg]
  have hTitle : List.count altMsg [feedTitleMsg] = 0 := by
    simp [List.count_singleton', feedTitleMsg, altMsg]
  have hUpd : List.count altMsg [feedUpdatedMsg] = 0 := by
    simp [List.count_singleton', feedUpdatedMsg, altMsg]
  rw [hId, hTitle, hUpd]
  simp only [List.count_nil, ite_self, Nat.zero_add, Nat.add_zero, Nat.mul_zero]
  simp

/-! ### Membership walks -/

theorem mem_mergeOpt_left {m : String} {i : List String} {v : Option (List String)}
    (h : m ∈ i) : m ∈ mergeOpt i v := by
  rw [mergeOpt_eq_append]; exact List.mem_append_left _ h

theorem mem_mergeOpt_right {m : String} {i : List String} {v : Option (List String)}
    (h : m ∈ optIssues v) : m ∈ mergeOpt i v := by
  rw [mergeOpt_eq_append]; exact List.mem_append_right _ h

theorem mem_ite_append {m : String} (c : Prop) [Decidable c] {i e : List String}
    (h : m ∈ i) : m ∈ (if c then i ++ e else i) := by
  split
  · exact List.mem_append_left _ h
  · exact h

theorem mem_updated_layer {m : String} (c : Prop) [Decidable c] {i : List String}
    {v : Option (List String)} {x : String} (h : m ∈ i) :
    m ∈ (if c then mergeOpt i v else i ++ [x]) := by
  split
  · exact mem_mergeOpt_left h
  · exact List.mem_append_left _ h

theorem mem_validateLinks (std : Stdlib) (ls : List Link) (found : Bool)
    {m : String} {i : List String} (h : m ∈ i) : m ∈ validateLinks std ls found i := by
  rcases validateLinks_prefix std ls found i with ⟨t, ht⟩
  rw [ht]
  exact List.mem_append_left _ h

theorem mem_timeStrIssues {std : Stdlib} {s m : String}
    (hpe : std.timeParseErr s = some m) : m ∈ optIssues (TimeStr.validate std s) := by
  simp [TimeStr.validate, hpe, parseErrIssues, optIssues_nilIfEmpty]

/-- Membership facts for `Feed.Validate`: whenever the run returns a
result, each required-field violation is reported with its exact
message, and a failed parse of a non-empty `updated` surfaces the
parser's message. -/
theorem feed_mem_walk (std : Stdlib) (f : Feed) {r : Option (List String)}
    (hok : Feed.Validate std f = .ok r) :
    (f.id = "" → feedIdMsg ∈ optIssues r)
    ∧ (f.title = "" → feedTitleMsg ∈ optIssues r)
    ∧ (f.updated = "" → feedUpdatedMsg ∈ optIssues r)
    ∧ (∀ m, f.updated ≠ "" → std.timeParseErr f.updated = some m → m ∈ optIssues r) := by
  obtain ⟨common, author, category, contributor, generator, icon, id, link, logo,
    rights, subtitle, title, updated, entry, ext⟩ := f
  simp only [Feed.id, Feed.title, Feed.updated]
  simp only [Feed.Validate] at hok
  rcases finishFeed_ok_inv hok with ⟨out, hloop, hr⟩
  rcases entriesLoop_ok_prefix std entry _ out hloop with ⟨t, hout⟩
  subst hr hout
  refine ⟨?_, ?_, ?_, ?_⟩
  · intro hid
    apply mem_optIssues_nilIfEmpty
    apply List.mem_append_left
    apply mem_updated_layer
    apply mem_ite_append
    apply mem_ite_append
    apply mem_ite_append
    apply mem_validateLinks
    rw [if_pos hid]
    exact List.mem_append_right _ (by simp)
  · intro htitle
    apply mem_optIssues_nilIfEmpty
    apply List.mem_append_left
    apply mem_updated_layer
    apply mem_ite_append
    rw [if_pos htitle]
    exact List.mem_append_right _ (by simp)
  · intro hu
    apply mem_optIssues_nilIfEmpty
    apply List.mem_append_left
    rw [if_neg (fun h => h hu)]
    exact List.mem_append_right _ (by simp)
  · intro m hne hpe
    apply mem_optIssues_nilIfEmpty
    apply List.mem_append_left
    rw [if_pos hne]
    exact mem_mergeOpt_right (mem_timeStrIssues hpe)

/-- Membership facts for `Entry.Validate`: whenever the run returns a
result, each required-field violation is reported with its exact
message, and a summary whose type is outside the enumeration surfaces
the enumeration message. -/
theorem mem_merge_layer {m : String} (c : Prop) [Decidable c] {i : List String}
    {v : Option (List String)} (h : m ∈ i) : m ∈ (if c then mergeOpt i v else i) := by
  split
  · exact mem_mergeOpt_left h
  · exact h

theorem mem_badTypeSummary {std : Stdlib} {t : Text} {i : List String}
    (htne : t.type ≠ "")
    (htenum : t.type ≠ "text" ∧ t.type ≠ "html" ∧ t.type ≠ "xhtml") :
    textTypeMsg ∈ mergeOpt i (optTextIssues std false (some t)) := by
  apply mem_mergeOpt_right
  simp only [optTextIssues, Text.validate, optIssues_nilIfEmpty]
  apply mem_ite_append
  rw [if_pos (by simp : ((!(false : Bool)) = true)), if_pos htne, if_pos htenum]
  exact List.mem_append_right _ (by simp)

/-- Membership facts for `Entry.Validate`: whenever the run returns a
result, each required-field violation is reported with its exact
message, and a summary whose type is outside the enumeration surfaces
the enumeration message. -/
theorem entry_mem_walk (std : Stdlib) (e : Entry) {r : Option (List String)}
    (hok : Entry.Validate std e = .ok r) :
    (e.id = "" → entryIdMsg ∈ optIssues r)
    ∧ (e.title = "" → entryTitleMsg ∈ optIssues r)
    ∧ (e.updated = "" → entryUpdatedMsg ∈ optIssues r)
    ∧ (∀ t, e.summary = some t → t.type ≠ "" →
        (t.type ≠ "text" ∧ t.type ≠ "html" ∧ t.type ≠ "xhtml") →
        textTypeMsg ∈ optIssues r) := by
  obtain ⟨common, author, category, content, contributor, id, link, published, rights,
    source, summary, title, updated, ext⟩ := e
  simp only [Entry.id, Entry.title, Entry.updated, Entry.summary]
  rcases source with _ | ⟨_ | sourceFeed⟩
  · simp only [Entry.Validate] at hok
    injection hok with h
    subst h
    refine ⟨?_, ?_, ?_, ?_⟩
    · intro hid
      apply mem_optIssues_nilIfEmpty
      apply mem_updated_layer
      apply mem_ite_append
      apply mem_mergeOpt_left
      apply mem_merge_layer
      apply mem_validateLinks
      rw [if_pos hid]
      exact List.mem_append_right _ (by simp)
    · intro htitle
      apply mem_optIssues_nilIfEmpty
      apply mem_updated_layer
      rw [if_pos htitle]
      exact List.mem_append_right _ (by simp)
    · intro hu
      apply mem_optIssues_nilIfEmpty
      rw [if_neg (fun h => h hu)]
      exact List.mem_append_right _ (by simp)
    · intro t hsum htne htenum
      apply mem_optIssues_nilIfEmpty
      apply mem_updated_layer
      apply mem_ite_append
      subst hsum
      exact mem_badTypeSummary htne htenum
  · simp only [Entry.Validate] at hok
    exact absurd hok (by simp)
  · simp only [Entry.Validate] at hok
    rcases finishEntry_ok_inv hok with ⟨sub, hfv, hr⟩
    subst hr
    refine ⟨?_, ?_, ?_, ?_⟩
    · intro hid
      apply mem_optIssues_nilIfEmpty
      apply mem_mergeOpt_left
      apply mem_updated_layer
      apply mem_ite_append
      apply mem_mergeOpt_left
      apply mem_ite_append
      apply mem_merge_layer
      apply mem_validateLinks
      rw [if_pos hid]
      exact List.mem_append_right _ (by simp)
    · intro htitle
      apply mem_optIssues_nilIfEmpty
      apply mem_mergeOpt_left
      apply mem_updated_layer
      rw [if_pos htitle]
      exact List.mem_append_right _ (by simp)
    · intro hu
      apply mem_optIssues_nilIfEmpty
      apply mem_mergeOpt_left
      rw [if_neg (fun h => h hu)]
      exact List.mem_append_right _ (by simp)
    · intro t hsum htne htenum
      apply mem_optIssues_nilIfEmpty
      apply mem_mergeOpt_left
      apply mem_updated_layer
      apply mem_ite_append
      subst hsum
      exact mem_badTypeSummary htne htenum

/-! ## Claims -/

theorem join_cons (a : String) (l : List String) :
    String.join (a :: l) = a ++ String.join l := by
  apply String.ext
  simp [String.join_eq]

theorem error_foldl_join (issues : List String) :
    ∀ acc : String,
      issues.foldl (fun result issue => result ++ "- " ++ issue ++ "\n") acc
        = acc ++ String.join (issues.map fun issue => "- " ++ issue ++ "\n") := by
  induction issues with
  | nil => intro acc; simp [String.join]
  | cons issue rest ih =>
    intro acc
    rw [List.foldl_cons, ih, List.map_cons, join_cons]
    simp only [String.append_assoc]

/-- C8: `NilIfEmpty` returns nil exactly when no issues were collected
and otherwise the aggregator itself, and `Error` renders the fixed
header line followed by one `- issue` line per collected issue, in
collection order. -/
theorem C8_finish_and_render :
    (∀ issues : List String, nilIfEmpty issues = none ↔ issues = [])
    ∧ (∀ issues : List String, issues ≠ [] → nilIfEmpty issues = some issues)
    ∧ (∀ issues : List String, ValidationError.Error issues =
        "An ATOM validation error occured:\n"
          ++ String.join (issues.map fun issue => "- " ++ issue ++ "\n")) := by
  refine ⟨?_, ?_, ?_⟩
  · intro issues
    by_cases h : issues = [] <;> simp [nilIfEmpty, h]
  · intro issues h
    simp [nilIfEmpty, h]
  · intro issues
    exact error_foldl_join issues _

/-- C8 witness: a two-issue aggregator is returned as the error and
renders as the header plus one line per issue. -/
theorem C8_witness :
    nilIfEmpty ["a", "b"] = some ["a", "b"]
    ∧ ValidationError.Error ["a", "b"]
        = "An ATOM validation error occured:\n" ++ String.join ["- a\n", "- b\n"] := by
  refine ⟨C8_finish_and_render.2.1 ["a", "b"] (by simp), ?_⟩
  have h := C8_finish_and_render.2.2 ["a", "b"]
  simpa using h

/-- C7: the claim says a missing category `term` is always reported
like the other required fields, but `Category.validate` never inspects
`Term` at all: a category with an empty term produces no issue, and the
validator's result does not depend on the term. -/
theorem C7_term_never_checked :
    Category.validate trivStd ⟨⟨"", ""⟩, "", "", ""⟩ = none
    ∧ ∀ (std : Stdlib) (c : Category) (t : String),
        Category.validate std c = Category.validate std { c with term := t } :=
  ⟨rfl, fun _ _ _ => rfl⟩

/-- C9: `Entry.Validate` dereferences `entry.Source.Feed` without a nil
check, so an entry whose source holds a nil feed pointer panics instead
of returning a report. -/
theorem C9_nil_source_feed_panics (std : Stdlib) (e : Entry)
    (hs : e.source = some (Source.mk none)) :
    Entry.Validate std e = .error () := by
  obtain ⟨common, author, category, content, contributor, id, link, published, rights,
    source, summary, title, updated, ext⟩ := e
  simp only [Entry.source] at hs
  subst hs
  simp only [Entry.Validate]

/-- C9 witness: a concrete entry with a nil source feed panics. -/
theorem C9_witness :
    Entry.Validate trivStd
      (Entry.mk ⟨"", ""⟩ [] [] none [] "id" [] "" "" (some (Source.mk none)) none
        "title" "2006-01-02T15:04:05Z" []) = .error () :=
  C9_nil_source_feed_panics trivStd _ rfl

/-- C10: `Merge` type-asserts its non-nil argument to
`*ValidationError`, panicking on any other dynamic type; every value a
validator can return is nil or a `*ValidationError`, so within the
package the panic branch is unreachable and merging a nil result leaves
the issues unchanged. -/
theorem C10_merge_assertion (issues : List String) :
    (∀ r : Option (List String),
      ValidationError.Merge issues (asGoError r) = some (mergeOpt issues r))
    ∧ ValidationError.Merge issues none = some issues
    ∧ (∀ msg, ValidationError.Merge issues (some (GoError.other msg)) = none)
    ∧ ∀ (std : Stdlib) (f : Feed) (r : Option (List String)),
        Feed.Validate std f = .ok r →
          ValidationError.Merge issues (asGoError r) ≠ none := by
  refine ⟨?_, rfl, fun _ => rfl, ?_⟩
  · intro r; cases r <;> rfl
  · intro std f r _
    cases r <;> simp [asGoError, ValidationError.Merge]

/-! Concrete inputs used by counterexamples and witnesses. -/

/-- A person with a name and no uri or email. -/
def p0 : Person := Person.mk ⟨"", ""⟩ "n" "" "" []

/-- A feed with three `rel="alternate"` links and no entries. -/
def c1Feed : Feed := Feed.mk ⟨"", ""⟩ [] [] [] none "" "id"
  [Link.mk ⟨"", ""⟩ "" "alternate" "" "" "" "",
   Link.mk ⟨"", ""⟩ "" "alternate" "" "" "" "",
   Link.mk ⟨"", ""⟩ "" "alternate" "" "" "" ""] "" "" "" "t" "2006-01-02T15:04:05Z" [] []

/-- A completely empty source feed. -/
def emptyFeed : Feed := Feed.mk ⟨"", ""⟩ [] [] [] none "" "" [] "" "" "" "" "" [] []

/-- An otherwise valid entry embedding `emptyFeed` as its source. -/
def c2Entry : Entry := Entry.mk ⟨"", ""⟩ [p0] [] none [] "eid" [] "" ""
  (some (Source.mk (some emptyFeed))) none "et" "u" []

/-- A feed with empty `updated` whose single entry embeds a source feed
that also has empty `updated`. -/
def c2Feed : Feed := Feed.mk ⟨"", ""⟩ [] [] [] none "" "fid" [] "" "" "" "ft" "" [c2Entry] []

/-- A bare entry with no authors. -/
def bareEntry : Entry := Entry.mk ⟨"", ""⟩ [] [] none [] "" [] "" "" none none "" "" []

/-- A source feed with no authors containing an author-less entry. -/
def c3SourceFeed : Feed :=
  Feed.mk ⟨"", ""⟩ [] [] [] none "" "" [] "" "" "" "" "" [bareEntry] []

/-- An entry that has an author but embeds `c3SourceFeed`. -/
def c3Entry : Entry := Entry.mk ⟨"", ""⟩ [p0] [] none [] "eid" [] "" ""
  (some (Source.mk (some c3SourceFeed))) none "et" "u" []

/-- A feed with no feed-level authors whose only entry has an author. -/
def c3Feed : Feed :=
  Feed.mk ⟨"", ""⟩ [] [] [] none "" "fid" [] "" "" "" "ft" "uu" [c3Entry] []

/-- C10 witness: merging a validator result with issues appends them;
merging the result of validating a concrete feed does not panic. -/
theorem C10_witness :
    ValidationError.Merge ["x"] (asGoError (some ["y"])) = some (mergeOpt ["x"] (some ["y"]))
    ∧ ValidationError.Merge ["x"]
        (asGoError (some [feedIdMsg, feedTitleMsg, feedUpdatedMsg, feedUpdatedMsg])) ≠ none :=
  ⟨(C10_merge_assertion ["x"]).1 (some ["y"]),
    (C10_merge_assertion ["x"]).2.2.2 trivStd
      (Feed.mk ⟨"", ""⟩ [] [] [] none "" "" [] "" "" "" "" "" [] [])
      (some [feedIdMsg, feedTitleMsg, feedUpdatedMsg, feedUpdatedMsg])
      (by simp [Feed.Validate, entriesLoop, finishFeed, validateCommon, mergeOpt,
        authorCoverageIssues, validateLinks, nilIfEmpty, trivStd, parseErrIssues,
        optGeneratorIssues])⟩

/-- C1 counterexample: a feed with three `rel="alternate"` links is
reported with the duplicate-alternate message twice, not exactly
once. -/
theorem C1_counterexample :
    Feed.Validate trivStd c1Feed = .ok (some [altMsg, altMsg])
    ∧ (issuesOf (Feed.Validate trivStd c1Feed)).count altMsg = 2
    ∧ 2 ≠ 1 := by
  have h : Feed.Validate trivStd c1Feed = .ok (some [altMsg, altMsg]) := by
    simp [Feed.Validate, c1Feed, entriesLoop, finishFeed, validateCommon, mergeOpt,
      authorCoverageIssues, validateLinks, nilIfEmpty, trivStd, parseErrIssues,
      optGeneratorIssues, Link.validate, TimeStr.validate, optTextIssues]
  refine ⟨h, ?_, by decide⟩
  rw [h]
  simp [issuesOf, optIssues, List.count_cons]

/-- C1 amended: for a feed with no entries and at least two
`rel="alternate"` links, the duplicate-alternate message is reported
once per alternate link beyond the first (n alternates yield n−1
occurrences, at least one), not exactly once. -/
theorem C1_amended (std : Stdlib) (hg : std.good) (f : Feed) (he : f.entry = [])
    (hn : 2 ≤ countAlternate f.link) :
    (issuesOf (Feed.Validate std f)).count altMsg = countAlternate f.link - 1
    ∧ 1 ≤ (issuesOf (Feed.Validate std f)).count altMsg := by
  have h := feed_count_alt_walk std hg f he
  exact ⟨h, by rw [h]; omega⟩

/-- C1 witness: the amended claim applied to the three-alternate
feed. -/
theorem C1_witness :
    (issuesOf (Feed.Validate trivStd c1Feed)).count altMsg = countAlternate c1Feed.link - 1
    ∧ 1 ≤ (issuesOf (Feed.Validate trivStd c1Feed)).count altMsg :=
  C1_amended trivStd trivStd_good c1Feed rfl (by simp [c1Feed, countAlternate, Feed.link])

/-- C2 counterexample: the claim quantifies over every feed with empty
`updated`, but a feed whose entry embeds a source feed that also has an
empty `updated` aggregates the message four times, not exactly
twice. -/
theorem C2_counterexample :
    Feed.Validate trivStd c2Feed =
      .ok (some [feedUpdatedMsg, feedUpdatedMsg, feedIdMsg, feedTitleMsg,
        feedUpdatedMsg, feedUpdatedMsg])
    ∧ c2Feed.updated = ""
    ∧ (issuesOf (Feed.Validate trivStd c2Feed)).count feedUpdatedMsg = 4
    ∧ 4 ≠ 2 := by
  have h : Feed.Validate trivStd c2Feed =
      .ok (some [feedUpdatedMsg, feedUpdatedMsg, feedIdMsg, feedTitleMsg,
        feedUpdatedMsg, feedUpdatedMsg]) := by
    simp [Feed.Validate, Entry.Validate, c2Feed, c2Entry, emptyFeed, p0, entriesLoop,
      finishFeed, finishEntry, validateCommon, mergeOpt, authorCoverageIssues,
      validateLinks, nilIfEmpty, trivStd, parseErrIssues, optGeneratorIssues,
      optTextIssues, Person.validate, TimeStr.validate, Feed.entry, Entry.author]
  refine ⟨h, rfl, ?_, by decide⟩
  rw [h]
  simp [issuesOf, optIssues, List.count_cons, feedUpdatedMsg, feedIdMsg, feedTitleMsg]

/-- C2 amended: for a feed none of whose entries carries a source
element, an empty `updated` is reported with the exact message twice by
the two sequential checks; a non-empty `updated` is parsed instead, any
parse failure message is merged into the result, and the empty-updated
message is not reported.  (Recursively validated source feeds can
contribute further occurrences of the message.) -/
theorem C2_amended (std : Stdlib) (hg : std.good) (f : Feed)
    (hs : ∀ e ∈ f.entry, e.source = none) :
    (f.updated = "" → (issuesOf (Feed.Validate std f)).count feedUpdatedMsg = 2)
    ∧ (∀ r m, f.updated ≠ "" → Feed.Validate std f = .ok r →
        std.timeParseErr f.updated = some m → m ∈ optIssues r)
    ∧ (f.updated ≠ "" → (issuesOf (Feed.Validate std f)).count feedUpdatedMsg = 0) := by
  have hmsg : feedUpdatedMsg ∈ atomMessages := by simp [atomMessages]
  have hnm : feedUpdatedMsg ∉ entryMsgs := by
    simp [entryMsgs, feedUpdatedMsg, entryIdMsg, altMsg, entrySourceMsg, textTypeMsg,
      entryTitleMsg, entryUpdatedMsg]
  refine ⟨?_, ?_, ?_⟩
  · intro hu
    rw [feed_count_walk std hg hmsg hnm f hs,
      count_authorCoverage_ne (by simp [authorMsg, feedUpdatedMsg]) f.entry, if_pos hu]
    simp [List.count_singleton', feedIdMsg, feedTitleMsg, feedUpdatedMsg]
  · intro r m hne hok hpe
    exact (feed_mem_walk std f hok).2.2.2 m hne hpe
  · intro hu
    rw [feed_count_walk std hg hmsg hnm f hs,
      count_authorCoverage_ne (by simp [authorMsg, feedUpdatedMsg]) f.entry, if_neg hu]
    simp [List.count_singleton', feedIdMsg, feedTitleMsg, feedUpdatedMsg]

/-- C2 witness: the amended claim applied to a source-free feed with
empty `updated` (the message appears exactly twice) and to one with an
unparsable non-empty `updated` (the parser message is merged). -/
theorem C2_witness :
    (issuesOf (Feed.Validate trivStd emptyFeed)).count feedUpdatedMsg = 2 :=
  (C2_amended trivStd trivStd_good emptyFeed (by simp [emptyFeed, Feed.entry])).1 rfl

/-- C3 counterexample: the claim quantifies over every feed with zero
feed-level authors, but author-coverage issues of recursively validated
source feeds are merged into the aggregate: here every top-level entry
has an author, yet the message appears once. -/
theorem C3_counterexample :
    Feed.Validate trivStd c3Feed =
      .ok (some [entrySourceMsg, authorMsg, feedIdMsg, feedTitleMsg, feedUpdatedMsg,
        feedUpdatedMsg, entryIdMsg, entryTitleMsg, entryUpdatedMsg])
    ∧ c3Feed.author = []
    ∧ (∀ e ∈ c3Feed.entry, e.author ≠ [])
    ∧ (issuesOf (Feed.Validate trivStd c3Feed)).count authorMsg = 1
    ∧ 1 ≠ 0 := by
  have h : Feed.Validate trivStd c3Feed =
      .ok (some [entrySourceMsg, authorMsg, feedIdMsg, feedTitleMsg, feedUpdatedMsg,
        feedUpdatedMsg, entryIdMsg, entryTitleMsg, entryUpdatedMsg]) := by
    simp [Feed.Validate, Entry.Validate, c3Feed, c3Entry, c3SourceFeed, bareEntry, p0,
      entriesLoop, finishFeed, finishEntry, validateCommon, mergeOpt,
      authorCoverageIssues, validateLinks, nilIfEmpty, trivStd, parseErrIssues,
      optGeneratorIssues, optTextIssues, Person.validate, TimeStr.validate,
      Feed.entry, Entry.author]
  refine ⟨h, rfl, ?_, ?_, by decide⟩
  · intro e he
    simp only [c3Feed, Feed.entry, List.mem_singleton] at he
    subst he
    simp [c3Entry, Entry.author, p0]
  · rw [h]
    simp [issuesOf, optIssues, List.count_cons, authorMsg, entrySourceMsg, feedIdMsg,
      feedTitleMsg, feedUpdatedMsg, entryIdMsg, entryTitleMsg, entryUpdatedMsg]

/-- C3 amended: for a feed none of whose entries carries a source
element: with zero feed-level authors the author-coverage message is
reported exactly once when some entry lacks authors — no matter how
many do — and never when every entry has one; with at least one
feed-level author the check is skipped and the message is never
reported.  (Source feeds validated recursively can contribute further
occurrences.) -/
theorem C3_amended (std : Stdlib) (hg : std.good) (f : Feed)
    (hs : ∀ e ∈ f.entry, e.source = none) :
    (f.author = [] → (∃ e ∈ f.entry, e.author = []) →
        (issuesOf (Feed.Validate std f)).count authorMsg = 1)
    ∧ (f.author = [] → (∀ e ∈ f.entry, ¬(e.author = [])) →
        (issuesOf (Feed.Validate std f)).count authorMsg = 0)
    ∧ (¬(f.author = []) → (issuesOf (Feed.Validate std f)).count authorMsg = 0) := by
  have hmsg : authorMsg ∈ atomMessages := by simp [atomMessages]
  have hnm : authorMsg ∉ entryMsgs := by
    simp [entryMsgs, authorMsg, entryIdMsg, altMsg, entrySourceMsg, textTypeMsg,
      entryTitleMsg, entryUpdatedMsg]
  refine ⟨?_, ?_, ?_⟩
  · intro ha hex
    rw [feed_count_walk std hg hmsg hnm f hs, if_pos ha, authorCoverage_exists _ hex]
    simp [List.count_singleton', feedIdMsg, feedTitleMsg, feedUpdatedMsg, authorMsg]
  · intro ha hall
    rw [feed_count_walk std hg hmsg hnm f hs, if_pos ha, authorCoverage_all _ hall]
    simp [List.count_singleton', feedIdMsg, feedTitleMsg, feedUpdatedMsg, authorMsg]
  · intro ha
    rw [feed_count_walk std hg hmsg hnm f hs, if_neg ha]
    simp [List.count_singleton', feedIdMsg, feedTitleMsg, feedUpdatedMsg, authorMsg]

/-- An entry without a source and without a summary never reports the
type-enumeration message: content mode suppresses the check and no
other rule produces it. -/
theorem entry_contrib_noSummary (std : Stdlib) (hg : std.good) (e : Entry)
    (hs : e.source = none) (hsum : e.summary = none) :
    ∃ r, Entry.Validate std e = .ok r ∧ textTypeMsg ∉ optIssues r := by
  obtain ⟨common, author, category, content, contributor, id, link, published, rights,
    source, summary, title, updated, ext⟩ := e
  simp only [Entry.source] at hs
  simp only [Entry.summary] at hsum
  subst hs
  subst hsum
  simp only [Entry.Validate]
  refine ⟨_, rfl, ?_⟩
  intro hmem
  rw [optIssues_nilIfEmpty] at hmem
  have hne : ∀ x, x ∉ atomMessages → ¬(x = textTypeMsg) := fun x hx heq =>
    hx (heq ▸ (by simp [atomMessages] : textTypeMsg ∈ atomMessages))
  have h1 := elems_mergeOpt (P := fun x => ¬(x = textTypeMsg)) elems_nil
    (fun x hx => hne x (notAtom_validateCommon std hg common x hx))
  have h2 := elems_foldl_mergeOpt (Person.validate std)
    (fun p x hx => hne x (notAtom_personValidate std hg p x hx)) author _ h1
  have h3 := elems_foldl_mergeOpt (Category.validate std)
    (fun c x hx => hne x (notAtom_categoryValidate std hg c x hx)) category _ h2
  have h4 := elems_mergeOpt h3
    (fun x hx => hne x (notAtom_optTextContent std hg content x hx))
  have h5 := elems_foldl_mergeOpt (Person.validate std)
    (fun p x hx => hne x (notAtom_personValidate std hg p x hx)) contributor _ h4
  have h6 := elems_ite (id = "") (elems_append_single entryIdMsg h5
    (by simp [entryIdMsg, textTypeMsg])) h5
  have h7 := elems_validateLinks std
    (fun l x hx => hne x (notAtom_linkValidate std hg l x hx))
    (by simp [altMsg, textTypeMsg]) link false _ h6
  have h8 := elems_ite (published ≠ "") (elems_mergeOpt h7
    (fun x hx => hne x (notAtom_timeStrValidate std hg published x hx))) h7
  have hvnone : ∀ x ∈ optIssues (optTextIssues std false none), ¬(x = textTypeMsg) := by
    intro x hx
    simp [optTextIssues, optIssues] at hx
  have h9 := elems_mergeOpt h8 hvnone
  have h10 := elems_ite (title = "") (elems_append_single entryTitleMsg h9
    (by simp [entryTitleMsg, textTypeMsg])) h9
  have h11 := elems_ite (updated ≠ "") (elems_mergeOpt h10
    (fun x hx => hne x (notAtom_timeStrValidate std hg updated x hx)))
    (elems_append_single entryUpdatedMsg h10 (by simp [entryUpdatedMsg, textTypeMsg]))
  exact h11 textTypeMsg hmem rfl

/-- C5: a Text whose type is non-empty and outside the enumeration is
reported with the enumeration message when it is an entry's summary;
the identical Text used as an entry's content (with no summary present)
is not reported — content mode suppresses the check. -/
theorem C5_content_mode_suppression (std : Stdlib) (hg : std.good) (t : Text)
    (htne : t.type ≠ "")
    (htenum : t.type ≠ "text" ∧ t.type ≠ "html" ∧ t.type ≠ "xhtml") :
    (∀ (e : Entry) (r : Option (List String)), e.summary = some t →
        Entry.Validate std e = .ok r → textTypeMsg ∈ optIssues r)
    ∧ (∀ e : Entry, e.content = some t → e.summary = none → e.source = none →
        ∃ r, Entry.Validate std e = .ok r ∧ textTypeMsg ∉ optIssues r) := by
  constructor
  · intro e r hsum hok
    exact (entry_mem_walk std e hok).2.2.2 t hsum htne htenum
  · intro e _ hsum hs
    exact entry_contrib_noSummary std hg e hs hsum

/-- C5 witness: a concrete `type="invalid"` text as summary is
reported; the same text as content is not. -/
theorem C5_witness :
    textTypeMsg ∈ optIssues (some [textTypeMsg])
    ∧ ∃ r, Entry.Validate trivStd
        (Entry.mk ⟨"", ""⟩ [] [] (some (Text.mk ⟨"", ""⟩ "invalid" "" "b")) [] "i" [] ""
          "" none none "ti" "2006-01-02T15:04:05Z" []) = .ok r
        ∧ textTypeMsg ∉ optIssues r := by
  have hbase := C5_content_mode_suppression trivStd trivStd_good
    (Text.mk ⟨"", ""⟩ "invalid" "" "b") (by simp) (by simp)
  constructor
  · refine hbase.1
      (Entry.mk ⟨"", ""⟩ [] [] none [] "i" [] "" "" none
        (some (Text.mk ⟨"", ""⟩ "invalid" "" "b")) "ti" "2006-01-02T15:04:05Z" [])
      (some [textTypeMsg]) rfl ?_
    simp [Entry.Validate, validateCommon, mergeOpt, validateLinks, nilIfEmpty, trivStd,
      parseErrIssues, optTextIssues, Text.validate, TimeStr.validate, textTypeMsg]
  · exact hbase.2 _ rfl rfl rfl

/-- The non-recursive part of `Entry.Validate` (`validation.go:167`,
steps up to and including the `Updated` check, with the source-entries
check of `validation.go:209` in its place after the `Published` check):
everything except the final recursive validation of the source feed. -/
def entryLocalIssues (std : Stdlib) : Entry → List String
  | .mk common author category content contributor id link published _rights
      source summary title updated _ext =>
    let issues := mergeOpt [] (validateCommon std common)
    let issues := author.foldl (fun acc person => mergeOpt acc (Person.validate std person)) issues
    let issues := category.foldl (fun acc cat => mergeOpt acc (Category.validate std cat)) issues
    let issues := mergeOpt issues (optTextIssues std true content)
    let issues := contributor.foldl (fun acc person => mergeOpt acc (Person.validate std person)) issues
    let issues := if id = "" then issues ++ [entryIdMsg] else issues
    let issues := validateLinks std link false issues
    let issues :=
      if published ≠ "" then mergeOpt issues (TimeStr.validate std published) else issues
    let issues :=
      match source with
      | some (.mk (some sourceFeed)) =>
        if sourceFeed.entry.length > 0 then issues ++ [entrySourceMsg] else issues
      | _ => issues
    let issues := mergeOpt issues (optTextIssues std false summary)
    let issues := if title = "" then issues ++ [entryTitleMsg] else issues
    if updated ≠ "" then mergeOpt issues (TimeStr.validate std updated)
    else issues ++ [entryUpdatedMsg]

/-- C4 amended: for an entry with a source feed present, the
source-entries check is part of the entry's own (step 9) checks, but
the recursive validation of the embedded feed happens after the
`Updated` check, as the final step: the result is the entry's own
issues followed by the source feed's issues, so a source feed missing
its title still surfaces the feed-level title message — at the end, not
at step 9. -/
theorem C4_amended (std : Stdlib) (e : Entry) (sf : Feed) (rsf : Option (List String))
    (hsrc : e.source = some (Source.mk (some sf)))
    (hok : Feed.Validate std sf = .ok rsf) :
    Entry.Validate std e = .ok (nilIfEmpty (mergeOpt (entryLocalIssues std e) rsf))
    ∧ (sf.entry.length > 0 → entrySourceMsg ∈ entryLocalIssues std e)
    ∧ (∀ m ∈ optIssues rsf, m ∈ issuesOf (Entry.Validate std e)) := by
  obtain ⟨common, author, category, content, contributor, id, link, published, rights,
    source, summary, title, updated, ext⟩ := e
  simp only [Entry.source] at hsrc
  subst hsrc
  have hmain : Entry.Validate std
      (Entry.mk common author category content contributor id link published rights
        (some (Source.mk (some sf))) summary title updated ext)
      = .ok (nilIfEmpty (mergeOpt (entryLocalIssues std
          (Entry.mk common author category content contributor id link published rights
            (some (Source.mk (some sf))) summary title updated ext)) rsf)) := by
    simp only [Entry.Validate, entryLocalIssues, hok, finishEntry]
  refine ⟨hmain, ?_, ?_⟩
  · intro hlen
    simp only [entryLocalIssues]
    apply mem_updated_layer
    apply mem_ite_append
    apply mem_mergeOpt_left
    rw [if_pos hlen]
    exact List.mem_append_right _ (by simp)
  · intro m hm
    rw [hmain, issuesOf_ok]
    apply mem_optIssues_nilIfEmpty
    exact mem_mergeOpt_right hm

/-- An entry with an empty title embedding an entry-less source feed
that lacks its own id, title and updated. -/
def c4Entry : Entry := Entry.mk ⟨"", ""⟩ [p0] [] none [] "eid" [] "" ""
  (some (Source.mk (some emptyFeed))) none "" "u" []

/-- C4 counterexample: the claim places the recursive validation of the
source feed at step 9, before the Summary, Title and Updated checks;
but the entry's own title issue comes first and the source feed's
issues come last, so the recursion runs after the Updated check. -/
theorem C4_counterexample :
    Entry.Validate trivStd c4Entry =
      .ok (some [entryTitleMsg, feedIdMsg, feedTitleMsg, feedUpdatedMsg, feedUpdatedMsg])
    ∧ List.indexOf entryTitleMsg
        [entryTitleMsg, feedIdMsg, feedTitleMsg, feedUpdatedMsg, feedUpdatedMsg]
      < List.indexOf feedTitleMsg
        [entryTitleMsg, feedIdMsg, feedTitleMsg, feedUpdatedMsg, feedUpdatedMsg] := by
  constructor
  · simp [Entry.Validate, Feed.Validate, c4Entry, emptyFeed, p0, entriesLoop,
      finishFeed, finishEntry, validateCommon, mergeOpt, authorCoverageIssues,
      validateLinks, nilIfEmpty, trivStd, parseErrIssues, optGeneratorIssues,
      optTextIssues, Person.validate, TimeStr.validate, Feed.entry]
  · decide

/-- C4 witness: the amended claim applied to `c4Entry` and its embedded
empty source feed. -/
theorem C4_witness :
    Entry.Validate trivStd c4Entry =
      .ok (nilIfEmpty (mergeOpt (entryLocalIssues trivStd c4Entry)
        (some [feedIdMsg, feedTitleMsg, feedUpdatedMsg, feedUpdatedMsg]))) :=
  (C4_amended trivStd c4Entry emptyFeed
      (some [feedIdMsg, feedTitleMsg, feedUpdatedMsg, feedUpdatedMsg]) rfl
      (by simp [Feed.Validate, emptyFeed, entriesLoop, finishFeed, validateCommon,
        mergeOpt, authorCoverageIssues, validateLinks, nilIfEmpty, trivStd,
        parseErrIssues, optGeneratorIssues])).1

/-! ### The empty timestamp is never parsed

Two stdlibs that agree on URL and mail parsing and on time parsing of
every non-empty string produce identical validation results: the
validators never hand the empty string to the RFC 3339 parser. -/

section TimeAgreement

variable (std₁ std₂ : Stdlib)

theorem validateCommon_congr (hurl : std₁.urlParseErr = std₂.urlParseErr) (c : Common) :
    validateCommon std₁ c = validateCommon std₂ c := by
  simp [validateCommon, hurl]

theorem personValidate_congr (hurl : std₁.urlParseErr = std₂.urlParseErr)
    (hmail : std₁.mailParseErr = std₂.mailParseErr) (p : Person) :
    Person.validate std₁ p = Person.validate std₂ p := by
  simp [Person.validate, hurl, hmail, validateCommon_congr std₁ std₂ hurl]

theorem categoryValidate_congr (hurl : std₁.urlParseErr = std₂.urlParseErr) (c : Category) :
    Category.validate std₁ c = Category.validate std₂ c := by
  simp [Category.validate, hurl, validateCommon_congr std₁ std₂ hurl]

theorem generatorIssues_congr (hurl : std₁.urlParseErr = std₂.urlParseErr)
    (g : Option Generator) :
    optGeneratorIssues std₁ g = optGeneratorIssues std₂ g := by
  cases g <;> simp [optGeneratorIssues, Generator.validate, hurl,
    validateCommon_congr std₁ std₂ hurl]

theorem linkValidate_congr (hurl : std₁.urlParseErr = std₂.urlParseErr) (l : Link) :
    Link.validate std₁ l = Link.validate std₂ l := by
  simp [Link.validate, hurl, validateCommon_congr std₁ std₂ hurl]

theorem textIssues_congr (hurl : std₁.urlParseErr = std₂.urlParseErr) (b : Bool)
    (t : Option Text) : optTextIssues std₁ b t = optTextIssues std₂ b t := by
  cases t <;> simp [optTextIssues, Text.validate, hurl,
    validateCommon_congr std₁ std₂ hurl]

theorem validateLinks_congr (hurl : std₁.urlParseErr = std₂.urlParseErr) :
    ∀ (ls : List Link) (found : Bool) (i : List String),
      validateLinks std₁ ls found i = validateLinks std₂ ls found i := by
  intro ls
  induction ls with
  | nil => intro found i; simp [validateLinks]
  | cons l rest ih =>
    intro found i
    simp only [validateLinks, linkValidate_congr std₁ std₂ hurl, ih]

theorem time_if_congr
    (htime : ∀ s, s ≠ "" → std₁.timeParseErr s = std₂.timeParseErr s)
    (s : String) (i Y : List String) :
    (if s ≠ "" then mergeOpt i (TimeStr.validate std₁ s) else Y)
      = (if s ≠ "" then mergeOpt i (TimeStr.validate std₂ s) else Y) := by
  by_cases hs : s = ""
  · rw [if_neg (fun h => h hs), if_neg (fun h => h hs)]
  · rw [if_pos hs, if_pos hs]
    simp [TimeStr.validate, htime s hs]

theorem validate_time_agreement_strong
    (hurl : std₁.urlParseErr = std₂.urlParseErr)
    (hmail : std₁.mailParseErr = std₂.mailParseErr)
    (htime : ∀ s, s ≠ "" → std₁.timeParseErr s = std₂.timeParseErr s) :
    ∀ n : Nat,
      (∀ f : Feed, sizeOf f ≤ n → Feed.Validate std₁ f = Feed.Validate std₂ f)
      ∧ (∀ e : Entry, sizeOf e ≤ n → Entry.Validate std₁ e = Entry.Validate std₂ e)
      ∧ (∀ l : List Entry, sizeOf l ≤ n → ∀ i : List String,
          entriesLoop std₁ l i = entriesLoop std₂ l i) := by
  intro n
  induction n using Nat.strong_induction_on with
  | _ n ih =>
    have hentry : ∀ e : Entry, sizeOf e ≤ n → Entry.Validate std₁ e = Entry.Validate std₂ e := by
      intro e hsz
      obtain ⟨common, author, category, content, contributor, id, link, published, rights,
        source, summary, title, updated, ext⟩ := e
      rcases source with _ | ⟨_ | sourceFeed⟩
      · simp only [Entry.Validate,
          validateCommon_congr std₁ std₂ hurl, personValidate_congr std₁ std₂ hurl hmail,
          categoryValidate_congr std₁ std₂ hurl, textIssues_congr std₁ std₂ hurl,
          validateLinks_congr std₁ std₂ hurl,
          time_if_congr std₁ std₂ htime published, time_if_congr std₁ std₂ htime updated]
      · simp only [Entry.Validate]
      · have hsf : sizeOf sourceFeed ≤ n - 1 := by
          have := hsz
          simp only [Entry.mk.sizeOf_spec, Option.some.sizeOf_spec,
            Source.mk.sizeOf_spec] at this
          omega
        have hn1 : n - 1 < n := by
          have := hsz
          simp only [Entry.mk.sizeOf_spec, Option.some.sizeOf_spec,
            Source.mk.sizeOf_spec] at this
          omega
        have hrec := (ih (n - 1) hn1).1 sourceFeed hsf
        simp only [Entry.Validate,
          validateCommon_congr std₁ std₂ hurl, personValidate_congr std₁ std₂ hurl hmail,
          categoryValidate_congr std₁ std₂ hurl, textIssues_congr std₁ std₂ hurl,
          validateLinks_congr std₁ std₂ hurl,
          time_if_congr std₁ std₂ htime published, time_if_congr std₁ std₂ htime updated,
          hrec]
    have hloop : ∀ l : List Entry, sizeOf l ≤ n → ∀ i : List String,
        entriesLoop std₁ l i = entriesLoop std₂ l i := by
      intro l hsz i
      cases l with
      | nil => simp [entriesLoop]
      | cons e rest =>
        have hszc := hsz
        simp only [List.cons.sizeOf_spec] at hszc
        have he : Entry.Validate std₁ e = Entry.Validate std₂ e :=
          hentry e (by omega)
        have hrest : ∀ i, entriesLoop std₁ rest i = entriesLoop std₂ rest i := by
          intro i
          have hn1 : n - 1 < n := by omega
          exact (ih (n - 1) hn1).2.2 rest (by omega) i
        simp only [entriesLoop, he]
        cases Entry.Validate std₂ e with
        | error u => rfl
        | ok r => exact hrest _
    refine ⟨?_, hentry, hloop⟩
    intro f hsz
    obtain ⟨common, author, category, contributor, generator, icon, id, link, logo,
      rights, subtitle, title, updated, entry, ext⟩ := f
    have hszf := hsz
    simp only [Feed.mk.sizeOf_spec] at hszf
    have hloopE : ∀ i, entriesLoop std₁ entry i = entriesLoop std₂ entry i :=
      fun i => hloop entry (by omega) i
    simp only [Feed.Validate,
      validateCommon_congr std₁ std₂ hurl, personValidate_congr std₁ std₂ hurl hmail,
      categoryValidate_congr std₁ std₂ hurl, generatorIssues_congr std₁ std₂ hurl,
      validateLinks_congr std₁ std₂ hurl, hurl,
      time_if_congr std₁ std₂ htime updated, hloopE]

/-- Two stdlibs agreeing everywhere except possibly on time-parsing the
empty string validate every feed and entry identically: the validators
never attempt to parse an empty timestamp. -/
theorem validate_time_agreement
    (hurl : std₁.urlParseErr = std₂.urlParseErr)
    (hmail : std₁.mailParseErr = std₂.mailParseErr)
    (htime : ∀ s, s ≠ "" → std₁.timeParseErr s = std₂.timeParseErr s) :
    (∀ f : Feed, Feed.Validate std₁ f = Feed.Validate std₂ f)
    ∧ (∀ e : Entry, Entry.Validate std₁ e = Entry.Validate std₂ e) := by
  have h := validate_time_agreement_strong std₁ std₂ hurl hmail htime
  exact ⟨fun f => (h (sizeOf f)).1 f le_rfl, fun e => (h (sizeOf e)).2.1 e le_rfl⟩

end TimeAgreement

/-- C6: every empty `id`, `title` or `updated` on a feed or an entry is
reported with its exact message, and an empty `updated` short-circuits
the RFC 3339 parse: replacing what the parser would answer on the empty
string (keeping all answers on non-empty strings) never changes any
validation result. -/
theorem C6_required_fields (std : Stdlib) (f : Feed) (e : Entry)
    (rf re : Option (List String)) (hf : Feed.Validate std f = .ok rf)
    (he : Entry.Validate std e = .ok re) :
    (f.id = "" → feedIdMsg ∈ optIssues rf)
    ∧ (f.title = "" → feedTitleMsg ∈ optIssues rf)
    ∧ (f.updated = "" → feedUpdatedMsg ∈ optIssues rf)
    ∧ (e.id = "" → entryIdMsg ∈ optIssues re)
    ∧ (e.title = "" → entryTitleMsg ∈ optIssues re)
    ∧ (e.updated = "" → entryUpdatedMsg ∈ optIssues re)
    ∧ (∀ junk : String → Option String,
        (∀ s, s ≠ "" → junk s = std.timeParseErr s) →
        Feed.Validate ⟨std.urlParseErr, std.mailParseErr, junk⟩ f = Feed.Validate std f
        ∧ Entry.Validate ⟨std.urlParseErr, std.mailParseErr, junk⟩ e
            = Entry.Validate std e) := by
  obtain ⟨hfid, hftitle, hfupd, -⟩ := feed_mem_walk std f hf
  obtain ⟨heid, hetitle, heupd, -⟩ := entry_mem_walk std e he
  refine ⟨hfid, hftitle, hfupd, heid, hetitle, heupd, ?_⟩
  intro junk hjunk
  have h := validate_time_agreement ⟨std.urlParseErr, std.mailParseErr, junk⟩ std
    rfl rfl hjunk
  exact ⟨h.1 f, h.2 e⟩

/-- C6 witness: the empty feed and the bare entry report all three
required-field messages each, and a parser that would reject the empty
string leaves both results unchanged. -/
theorem C6_witness :
    (feedIdMsg ∈ optIssues (some [feedIdMsg, feedTitleMsg, feedUpdatedMsg, feedUpdatedMsg])
      ∧ feedTitleMsg ∈ optIssues (some [feedIdMsg, feedTitleMsg, feedUpdatedMsg, feedUpdatedMsg])
      ∧ feedUpdatedMsg ∈ optIssues (some [feedIdMsg, feedTitleMsg, feedUpdatedMsg, feedUpdatedMsg])
      ∧ entryIdMsg ∈ optIssues (some [entryIdMsg, entryTitleMsg, entryUpdatedMsg])
      ∧ entryTitleMsg ∈ optIssues (some [entryIdMsg, entryTitleMsg, entryUpdatedMsg])
      ∧ entryUpdatedMsg ∈ optIssues (some [entryIdMsg, entryTitleMsg, entryUpdatedMsg]))
    ∧ Feed.Validate ⟨trivStd.urlParseErr, trivStd.mailParseErr,
        fun s => if s = "" then some "boom" else none⟩ emptyFeed
      = Feed.Validate trivStd emptyFeed := by
  have hf : Feed.Validate trivStd emptyFeed =
      .ok (some [feedIdMsg, feedTitleMsg, feedUpdatedMsg, feedUpdatedMsg]) := by
    simp [Feed.Validate, emptyFeed, entriesLoop, finishFeed, validateCommon, mergeOpt,
      authorCoverageIssues, validateLinks, nilIfEmpty, trivStd, parseErrIssues,
      optGeneratorIssues]
  have hent : Entry.Validate trivStd bareEntry =
      .ok (some [entryIdMsg, entryTitleMsg, entryUpdatedMsg]) := by
    simp [Entry.Validate, bareEntry, validateCommon, mergeOpt, validateLinks,
      nilIfEmpty, trivStd, parseErrIssues, optTextIssues]
  have h := C6_required_fields trivStd emptyFeed bareEntry _ _ hf hent
  exact ⟨⟨h.1 rfl, h.2.1 rfl, h.2.2.1 rfl, h.2.2.2.1 rfl, h.2.2.2.2.1 rfl,
      h.2.2.2.2.2.1 rfl⟩,
    (h.2.2.2.2.2.2 (fun s => if s = "" then some "boom" else none)
      (fun s hs => by simp [hs, trivStd])).1⟩

/-- C3 witness: the amended claim applied to a feed with no authors
whose two entries both lack authors — the message appears exactly
once. -/
theorem C3_witness :
    (issuesOf (Feed.Validate trivStd
      (Feed.mk ⟨"", ""⟩ [] [] [] none "" "fid" [] "" "" "" "ft" "uu"
        [bareEntry, bareEntry] []))).count authorMsg = 1 :=
  (C3_amended trivStd trivStd_good _
      (by intro e he; simp only [Feed.entry, List.mem_cons, List.mem_singleton] at he
          rcases he with rfl | rfl | h
          · rfl
          · rfl
          · simp at h)).1
    rfl ⟨bareEntry, by simp [Feed.entry], rfl⟩

end Atom
